import Mathlib

/-!
A shallow embedding of the proxy-profile configuration engine of
`src/appproxy.cpp` (class `AppProxy`), together with proofs about its
validation rules, config builders, share-link codecs, subscription import,
latency cache and app-config update.

Modelling conventions, used throughout:

* `QJsonObject` values are modelled by `JVal` / `JObj` (an association list;
  lookups take the first matching key, and parser-produced objects have
  unique keys, as `QJsonObject` does).  `QJsonValue::toString()` returns the
  empty string for non-string values, `toBool()` returns `false` for
  non-bool values and `toInt()` returns `0` for non-number values, exactly
  as in Qt.
* `QString` operations are modelled by executable helpers over the
  character list (`qSplitC` = `QString::split(QChar)` with kept empty
  parts, `qTrim` = `trimmed()` restricted to ASCII whitespace, `toLowerQ` =
  `toLower()`, `startsWithQ`, `qMid`/`qLeft` with Qt's out-of-range
  behaviour, `qIndexOfC` returning `-1` when absent).
* `QString::toInt(&ok)` is modelled by `qtToInt : String → Option Int`
  (base 10, C locale: optional sign, decimal digits, surrounding ASCII
  whitespace ignored, failure outside the 32-bit int range; digit-group
  separators are not modelled).  `toInt()` without an `ok` out-parameter is
  `toIntDef`, which yields `0` on failure.
* `tr(...)` is the identity (no translation files are loaded in the model).
* `std::rand()` is modelled by an explicit stream `rand : Nat → Nat` giving
  the successive draws; distinct call sites receive distinct streams where
  that matters (the subscription import takes a per-line stream
  `randAt : Nat → Nat → Nat`).
* Byte arrays are modelled as `List Nat`; the `QByteArray → QString`
  conversions are modelled byte-for-byte (Latin-1 view); multi-byte UTF-8
  is not decoded, which is faithful for the ASCII data handled here.
* The filesystem check `QDir(path).exists()` (`AppProxy::isFileExists`) is
  an external effect and is passed in as a parameter `fs : String → Bool`.
-/

set_option maxRecDepth 8000

/-- A JSON value as stored in a `QJsonValue`.  `numNI` stands for a
non-integral number (the code paths modelled here only read numbers through
`QJsonValue::toInt`, which rejects non-integral doubles, so the mantissa of
a non-integral number is irrelevant). -/
inductive JVal where
  | null
  | jbool (b : Bool)
  | num (n : Int)
  | numNI
  | str (s : String)
  | arr (elems : List JVal)
  | obj (fields : List (String × JVal))
deriving Repr

mutual

/-- Structural equality test for `JVal` (deriving does not handle the
nested lists). -/
def JVal.beq : JVal → JVal → Bool
  | .null, .null => true
  | .jbool a, .jbool b => a == b
  | .num a, .num b => a == b
  | .numNI, .numNI => true
  | .str a, .str b => a == b
  | .arr as, .arr bs => JVal.beqL as bs
  | .obj as, .obj bs => JVal.beqF as bs
  | _, _ => false

/-- Elementwise `JVal.beq` on lists. -/
def JVal.beqL : List JVal → List JVal → Bool
  | [], [] => true
  | a :: as, b :: bs => JVal.beq a b && JVal.beqL as bs
  | _, _ => false

/-- Elementwise `JVal.beq` on key-value lists. -/
def JVal.beqF : List (String × JVal) → List (String × JVal) → Bool
  | [], [] => true
  | (k, a) :: as, (k', b) :: bs => k == k' && JVal.beq a b && JVal.beqF as bs
  | _, _ => false

end

theorem JVal.beq_iff_all :
    ∀ n : Nat,
      (∀ a b : JVal, sizeOf a ≤ n → (JVal.beq a b = true ↔ a = b)) ∧
      (∀ as bs : List JVal, sizeOf as ≤ n → (JVal.beqL as bs = true ↔ as = bs)) ∧
      (∀ fs gs : List (String × JVal), sizeOf fs ≤ n →
        (JVal.beqF fs gs = true ↔ fs = gs)) := by
  intro n
  induction n using Nat.strong_induction_on with
  | _ n ih =>
    refine ⟨fun a b ha => ?_, fun as bs has => ?_, fun fs gs hfs => ?_⟩
    · cases a <;> cases b <;>
        simp_all [JVal.beq, beq_iff_eq]
      · rename_i as bs
        have hlt : sizeOf as < n := by
          have := JVal.arr.sizeOf_spec as; omega
        exact (ih (sizeOf as) hlt).2.1 as bs le_rfl
      · rename_i fs gs
        have hlt : sizeOf fs < n := by
          have := JVal.obj.sizeOf_spec fs; omega
        exact (ih (sizeOf fs) hlt).2.2 fs gs le_rfl
    · cases as with
      | nil => cases bs <;> simp [JVal.beqL]
      | cons a as =>
        cases bs with
        | nil => simp [JVal.beqL]
        | cons b bs =>
          have h1 : sizeOf a < n := by
            have := List.cons.sizeOf_spec a as; omega
          have h2 : sizeOf as < n := by
            have := List.cons.sizeOf_spec a as
            have : 0 < sizeOf a := by cases a <;> simp_arith
            omega
          simp [JVal.beqL, (ih (sizeOf a) h1).1 a b le_rfl,
            (ih (sizeOf as) h2).2.1 as bs le_rfl]
    · cases fs with
      | nil => cases gs <;> simp [JVal.beqF]
      | cons f fs =>
        cases gs with
        | nil => simp [JVal.beqF]
        | cons g gs =>
          obtain ⟨k, a⟩ := f
          obtain ⟨k', b⟩ := g
          have h1 : sizeOf a < n := by
            have := List.cons.sizeOf_spec (k, a) fs
            have := Prod.mk.sizeOf_spec k a
            omega
          have h2 : sizeOf fs < n := by
            have := List.cons.sizeOf_spec (k, a) fs
            have := Prod.mk.sizeOf_spec k a
            have : 0 < sizeOf a := by cases a <;> simp_arith
            omega
          simp [JVal.beqF, beq_iff_eq, (ih (sizeOf a) h1).1 a b le_rfl,
            (ih (sizeOf fs) h2).2.2 fs gs le_rfl, and_assoc]

instance : DecidableEq JVal := fun a b =>
  decidable_of_iff _ ((JVal.beq_iff_all (sizeOf a)).1 a b le_rfl)

/-- A `QJsonObject`, as an association list (first binding wins on lookup;
objects produced by the JSON parser and by the C++ initializer lists in the
source have unique keys, so this agrees with `QJsonObject`). -/
abbrev JObj := List (String × JVal)

/-- `QJsonObject::contains`. -/
def jContains (o : JObj) (k : String) : Bool :=
  o.any (fun p => p.1 = k)

/-- `QJsonObject::operator[]`, returning `none` for the Undefined value. -/
def jGetVal (o : JObj) (k : String) : Option JVal :=
  (o.find? (fun p => p.1 = k)).map (fun p => p.2)

/-- `serverConfig[key].toString()`: empty string for a missing key or a
non-string value, as `QJsonValue::toString()`. -/
def jGetStr (o : JObj) (k : String) : String :=
  match jGetVal o k with
  | some (.str s) => s
  | _ => ""

/-- `serverConfig[key].toBool()`: `false` for a missing key or a non-bool
value, as `QJsonValue::toBool()`. -/
def jGetBool (o : JObj) (k : String) : Bool :=
  match jGetVal o k with
  | some (.jbool b) => b
  | _ => false

/-- `QJsonValue::toInt()` (default `0`): the value of an integral number,
else `0`. -/
def jValToInt (v : Option JVal) : Int :=
  match v with
  | some (.num n) => n
  | _ => 0

/-- `QJsonObject::insert` (replace an existing binding, else append). -/
def jInsert : JObj → String → JVal → JObj
  | [], k, v => [(k, v)]
  | p :: rest, k, v => if p.1 = k then (k, v) :: rest else p :: jInsert rest k v

/-- Auxiliary loop of `qSplitC`. -/
def qSplitCAux (sep : Char) : List Char → List Char → List String
  | [], acc => [String.mk acc.reverse]
  | c :: cs, acc =>
    if c = sep then String.mk acc.reverse :: qSplitCAux sep cs []
    else qSplitCAux sep cs (c :: acc)

/-- `QString::split(QChar)` with the default `Qt::KeepEmptyParts`. -/
def qSplitC (s : String) (sep : Char) : List String :=
  qSplitCAux sep s.data []

/-- ASCII whitespace, for `qTrim`. -/
def isSpaceQ (c : Char) : Bool :=
  decide (c = ' ') || decide (c = '\t') || decide (c = '\n') || decide (c = '\r')
    || decide (c = Char.ofNat 11) || decide (c = Char.ofNat 12)

/-- `QString::trimmed()` (restricted to ASCII whitespace). -/
def qTrim (s : String) : String :=
  String.mk (((s.data.dropWhile isSpaceQ).reverse.dropWhile isSpaceQ).reverse)

/-- List-level byte-wise prefix test. -/
def startsWithL : List Char → List Char → Bool
  | [], _ => true
  | _ :: _, [] => false
  | p :: ps, c :: cs => p == c && startsWithL ps cs

/-- `QString::startsWith`. -/
def startsWithQ (s pat : String) : Bool :=
  startsWithL pat.data s.data

/-- `QString::toLower()` (ASCII; the data handled here is ASCII). -/
def toLowerQ (s : String) : String :=
  String.mk (s.data.map Char.toLower)

/-- `QString::toInt(&ok)`: base-10 C-locale parse with optional sign,
surrounding ASCII whitespace ignored, failing outside the 32-bit range. -/
def qtToInt (s : String) : Option Int :=
  let t := qTrim s
  let (sign, digits) :=
    if startsWithQ t "-" then ((-1 : Int), t.drop 1)
    else if startsWithQ t "+" then ((1 : Int), t.drop 1)
    else ((1 : Int), t)
  if digits.data.length = 0 ∨ ¬ digits.data.all Char.isDigit then none
  else
    let mag : Nat := digits.data.foldl (fun acc c => acc * 10 + (c.toNat - 48)) 0
    let v : Int := sign * (mag : Int)
    if v < -(2 ^ 31) ∨ v > 2 ^ 31 - 1 then none else some v

/-- `QString::toInt()` without an `ok` flag: `0` on failure. -/
def toIntDef (s : String) : Int :=
  (qtToInt s).getD 0

/-- The message `tr("Missing the value of '%1'.")`. -/
def missingMsg (name : String) : String :=
  "Missing the value of '" ++ name ++ "'."

/-- The message `tr("The value of '%1' seems invalid.")`. -/
def invalidMsg (name : String) : String :=
  "The value of '" ++ name ++ "' seems invalid."

/-- The message `tr("The value of '%1' should above %2.")`. -/
def aboveMsg (name : String) (lowerBound : Int) : String :=
  "The value of '" ++ name ++ "' should above " ++ toString lowerBound ++ "."

/-- The message `tr("The value of '%1' should between %2 and %3.")`. -/
def betweenMsg (name : String) (lowerBound upperBound : Int) : String :=
  "The value of '" ++ name ++ "' should between " ++ toString lowerBound
    ++ " and " ++ toString upperBound ++ "."

/-- `AppProxy::getStringConfigError` (appproxy.cpp:520-540): missing/empty
field check, then the `checkpoints` predicates, the field being valid if any
predicate matches. -/
def getStringConfigError (serverConfig : JObj) (key name : String)
    (checkpoints : List (String → Bool)) : String :=
  if ¬ jContains serverConfig key ∨ jGetStr serverConfig key = "" then
    missingMsg name
  else if 0 < checkpoints.length
      ∧ ¬ (checkpoints.any (fun ckpt => ckpt (jGetStr serverConfig key))) then
    invalidMsg name
  else ""

/-- `AppProxy::getNumericConfigError` (appproxy.cpp:567-588).  Note the
`upperBound == -127` sentinel branch and that the closed-range check that
follows it is not guarded by `upperBound != -127`. -/
def getNumericConfigError (serverConfig : JObj) (key name : String)
    (lowerBound upperBound : Int) : String :=
  if ¬ jContains serverConfig key ∨ jGetStr serverConfig key = "" then
    missingMsg name
  else
    match qtToInt (jGetStr serverConfig key) with
    | none => invalidMsg name
    | some value =>
      if upperBound = -127 ∧ value < lowerBound then aboveMsg name lowerBound
      else if value < lowerBound ∨ value > upperBound then
        betweenMsg name lowerBound upperBound
      else ""

/-- One octet of the IPv4 regular expression in `AppProxy::isIpAddrValid`
(appproxy.cpp:542-547): `[0-9]|[1-9][0-9]|1[0-9]{2}|2[0-4][0-9]|25[0-5]`. -/
def isOctet (s : String) : Bool :=
  match s.data with
  | [a] => a.isDigit
  | [a, b] => decide ('1' ≤ a) && decide (a ≤ '9') && b.isDigit
  | [a, b, c] =>
    (decide (a = '1') && b.isDigit && c.isDigit)
      || (decide (a = '2') && decide ('0' ≤ b) && decide (b ≤ '4') && c.isDigit)
      || (decide (a = '2') && decide (b = '5') && decide ('0' ≤ c) && decide (c ≤ '5'))
  | _ => false

/-- `AppProxy::isIpAddrValid`: the anchored regex
`^(octet\.){3}octet$`.  Since an octet cannot contain `'.'`, a string
matches exactly when it splits on `'.'` into four valid octets. -/
def isIpAddrValid (ipAddr : String) : Bool :=
  let parts := qSplitC ipAddr '.'
  decide (parts.length = 4) && parts.all isOctet

/-- `[a-z0-9]` (the regex is case-sensitive, so upper case is invalid). -/
def isDnsChar (c : Char) : Bool :=
  (decide ('a' ≤ c) && decide (c ≤ 'z')) || c.isDigit

/-- `[a-z0-9-]`. -/
def isDnsMidChar (c : Char) : Bool :=
  isDnsChar c || decide (c = '-')

/-- A non-final label of `AppProxy::isDomainNameValid`:
`[a-z0-9](?:[a-z0-9-]{0,61}[a-z0-9])?`. -/
def dnsLabelNonFinal (s : String) : Bool :=
  match s.data with
  | [] => false
  | [a] => isDnsChar a
  | a :: rest =>
    match rest.getLast? with
    | none => false
    | some z =>
      isDnsChar a && isDnsChar z && decide (rest.length ≤ 62)
        && rest.dropLast.all isDnsMidChar

/-- The final label of `AppProxy::isDomainNameValid`:
`[a-z0-9][a-z0-9-]{0,61}[a-z0-9]` (at least two characters). -/
def dnsLabelFinal (s : String) : Bool :=
  match s.data with
  | [] => false
  | [_] => false
  | a :: rest =>
    match rest.getLast? with
    | none => false
    | some z =>
      isDnsChar a && isDnsChar z && decide (rest.length ≤ 62)
        && rest.dropLast.all isDnsMidChar

/-- `AppProxy::isDomainNameValid` (appproxy.cpp:549-554): the anchored
regex `^(?:L\.)+F$`.  Labels cannot contain `'.'`, so a string matches
exactly when it splits on `'.'` into at least one `L` label followed by a
final `F` label. -/
def isDomainNameValid (domainName : String) : Bool :=
  let parts := qSplitC domainName '.'
  match parts.getLast? with
  | none => false
  | some lastPart =>
    decide (2 ≤ parts.length) && parts.dropLast.all dnsLabelNonFinal
      && dnsLabelFinal lastPart

/-- The cross-field message
`tr("'PAC Server Port' can not be the same as 'Listening Port'.")`. -/
def pacEqualMsg : String :=
  "'PAC Server Port' can not be the same as 'Listening Port'."

/-- The message `tr("'DNS Servers' seems invalid.")`. -/
def dnsInvalidMsg : String :=
  "'DNS Servers' seems invalid."

/-- `AppProxy::getAppConfigErrors` (appproxy.cpp:183-216).  The DNS loop
appends one message and breaks at the first invalid entry, so it is modelled
by a single conditional entry; the final `errors.removeAll("")` is the
filter. -/
def getAppConfigErrors (appConfig : JObj) : List String :=
  let errors :=
    [getStringConfigError appConfig "language" "Language" [],
     getStringConfigError appConfig "serverProtocol" "Local Server Protocol" [],
     getStringConfigError appConfig "serverIp" "Listening IP Address" [isIpAddrValid],
     getNumericConfigError appConfig "serverPort" "Listening Port" 1 65535,
     getNumericConfigError appConfig "pacPort" "PAC Server Port" 1 65535]
    ++ (if jGetStr appConfig "pacPort" = jGetStr appConfig "serverPort" then
          [pacEqualMsg] else [])
    ++ (if ¬ jContains appConfig "dns" ∨ jGetStr appConfig "dns" = "" then
          [missingMsg "DNS Servers"]
        else if (qSplitC (jGetStr appConfig "dns") ',').any
            (fun dnsServer => ¬ isIpAddrValid (qTrim dnsServer)) then
          [dnsInvalidMsg]
        else [])
  errors.filter (fun e => ¬ e = "")

/-- `AppProxy::getV2RayStreamSettingsErrors` (appproxy.cpp:481-518),
dispatched on the declared transport.  `fs` models
`AppProxy::isFileExists` (a filesystem probe). -/
def getV2RayStreamSettingsErrors (fs : String → Bool) (serverConfig : JObj)
    (network : String) : List String :=
  if network = "kcp" then
    [getNumericConfigError serverConfig "kcpMtu" "MTU" 576 1460,
     getNumericConfigError serverConfig "kcpTti" "TTI" 10 100,
     getNumericConfigError serverConfig "kcpUpLink" "Uplink Capacity" 0 (-127),
     getNumericConfigError serverConfig "kcpDownLink" "Downlink Capacity" 0 (-127),
     getNumericConfigError serverConfig "kcpReadBuffer" "Read Buffer Size" 0 (-127),
     getNumericConfigError serverConfig "kcpWriteBuffer" "Write Buffer Size" 0 (-127),
     getStringConfigError serverConfig "packetHeader" "Packet Header" []]
  else if network = "ws" ∨ network = "http" then
    [getStringConfigError serverConfig "networkHost" "Host" [isDomainNameValid],
     getStringConfigError serverConfig "networkPath" "Path" []]
  else if network = "domainsocket" then
    [getStringConfigError serverConfig "domainSocketFilePath" "Socket File Path" [fs]]
  else if network = "quic" then
    [getStringConfigError serverConfig "quicSecurity" "QUIC Security" [],
     getStringConfigError serverConfig "packetHeader" "Packet Header" [],
     getStringConfigError serverConfig "quicKey" "QUIC Key" []]
  else []

/-- `AppProxy::getV2RayServerConfigErrors` (appproxy.cpp:450-479); the final
`errors.removeAll("")` is the filter. -/
def getV2RayServerConfigErrors (fs : String → Bool) (serverConfig : JObj) :
    List String :=
  ([getStringConfigError serverConfig "serverName" "Server Name" [],
    getStringConfigError serverConfig "serverAddr" "Server Address"
      [isIpAddrValid, isDomainNameValid],
    getNumericConfigError serverConfig "serverPort" "Server Port" 0 65535,
    getStringConfigError serverConfig "id" "ID" [],
    getNumericConfigError serverConfig "alterId" "Alter ID" 0 65535,
    getStringConfigError serverConfig "security" "Security" [],
    getNumericConfigError serverConfig "mux" "MUX" (-1) 1024,
    getStringConfigError serverConfig "network" "Network" [],
    getStringConfigError serverConfig "networkSecurity" "Network Security" []]
   ++ getV2RayStreamSettingsErrors fs serverConfig (jGetStr serverConfig "network"))
    |>.filter (fun e => ¬ e = "")

/-- `AppProxy::getShadowsocksServerConfigErrors` (appproxy.cpp:750-771). -/
def getShadowsocksServerConfigErrors (serverConfig : JObj) : List String :=
  [getStringConfigError serverConfig "serverName" "Server Name" [],
   getStringConfigError serverConfig "serverAddr" "Server Address"
     [isIpAddrValid, isDomainNameValid],
   getNumericConfigError serverConfig "serverPort" "Server Port" 0 65535,
   getStringConfigError serverConfig "encryption" "Security" [],
   getStringConfigError serverConfig "password" "Password" []]
    |>.filter (fun e => ¬ e = "")

example : isIpAddrValid "127.0.0.1" = true := by decide
example : isIpAddrValid "256.0.0.1" = false := by decide
example : isDomainNameValid "a.com" = true := by decide
example : qtToInt "65535" = some 65535 := by decide
example : qtToInt "0x1" = none := by decide
example : qtToInt "-1" = some (-1) := by decide
example : qtToInt "" = none := by decide
example : toLowerQ "AuTo" = "auto" := by decide

/-- The `mux` block of `AppProxy::getPrettyV2RayConfig`. -/
structure MuxConfig where
  enabled : Bool
  concurrency : Int
deriving DecidableEq, Repr

/-- One entry of the `users` array of the vnext block. -/
structure VmessUser where
  id : String
  alterId : Int
  security : String
deriving DecidableEq, Repr

/-- One entry of the `vnext` array of the `settings` block. -/
structure VmessVnext where
  address : String
  port : Int
  users : List VmessUser
deriving DecidableEq, Repr

/-- The fixed decoy HTTP `request` object of the tcp camouflage
(appproxy.cpp:636-655); only `userAgent` varies between builds. -/
structure TcpHttpRequest where
  version : String
  method : String
  path : List String
  hostHeader : List String
  userAgent : List String
  acceptEncoding : List String
  connection : List String
  pragma : String
deriving DecidableEq, Repr

/-- The fixed decoy HTTP `response` object (appproxy.cpp:656-666). -/
structure TcpHttpResponse where
  version : String
  status : String
  reason : String
  contentType : List String
  transferEncoding : List String
  connection : List String
  pragma : String
deriving DecidableEq, Repr

/-- The `tcpSettings` block: header type plus the decoy request/response
pair inserted only when the header type is `"http"`. -/
structure TcpSettings where
  headerType : String
  request : Option TcpHttpRequest
  response : Option TcpHttpResponse
deriving DecidableEq, Repr

/-- The `kcpSettings` block (appproxy.cpp:669-682). -/
structure KcpSettings where
  mtu : Int
  tti : Int
  uplinkCapacity : Int
  downlinkCapacity : Int
  congestion : Bool
  readBufferSize : Int
  writeBufferSize : Int
  headerType : String
deriving DecidableEq, Repr

/-- The `wsSettings` block; `hostHeader` is the raw `QJsonValue` of
`serverConfig["networkHost"]` (appproxy.cpp:683-688). -/
structure WsSettings where
  path : String
  hostHeader : Option JVal
deriving DecidableEq, Repr

/-- The `httpSettings` block (appproxy.cpp:689-694). -/
structure HttpSettings where
  host : List String
  path : List String
deriving DecidableEq, Repr

/-- The `dsSettings` block (appproxy.cpp:695-698). -/
structure DsSettings where
  path : String
deriving DecidableEq, Repr

/-- The `quicSettings` block (appproxy.cpp:699-707). -/
structure QuicSettings where
  security : String
  key : String
  headerType : String
deriving DecidableEq, Repr

/-- The transport-specific block inserted into `streamSettings`; `noExtra`
models the case where the network string matches no branch and no block is
inserted. -/
inductive NetSettings where
  | tcp (s : TcpSettings)
  | kcp (s : KcpSettings)
  | ws (s : WsSettings)
  | http (s : HttpSettings)
  | domainsocket (s : DsSettings)
  | quic (s : QuicSettings)
  | noExtra
deriving DecidableEq, Repr

/-- The `streamSettings` object built by
`AppProxy::getV2RayStreamSettingsConfig`; `network` is the raw
`QJsonValue` of `serverConfig["network"]` and `allowInsecure` models the
`tlsSettings` sub-object. -/
structure StreamSettings where
  network : Option JVal
  security : String
  allowInsecure : Bool
  settings : NetSettings
deriving DecidableEq, Repr

/-- The canonical VMESS runtime configuration built by
`AppProxy::getPrettyV2RayConfig` (appproxy.cpp:590-620). -/
structure VmessConfig where
  autoConnect : Bool
  serverName : String
  subscription : String
  protocol : String
  mux : MuxConfig
  vnext : List VmessVnext
  tag : String
  streamSettings : StreamSettings
deriving DecidableEq, Repr

/-- The canonical Shadowsocks runtime configuration built by
`AppProxy::getPrettyShadowsocksConfig` (appproxy.cpp:773-791);
`streamNetwork` models the fixed `streamSettings: {network: "tcp"}`. -/
structure SsConfig where
  autoConnect : Bool
  serverName : String
  subscription : String
  protocol : String
  address : String
  port : Int
  method : String
  password : String
  streamNetwork : String
  tag : String
deriving DecidableEq, Repr

/-- A profile as persisted via `configurator.addServer` (either pretty
config). -/
inductive StoredServer where
  | vmess (c : VmessConfig)
  | shadowsocks (c : SsConfig)
deriving DecidableEq, Repr

/-- The `OPERATING_SYSTEMS` pool of `AppProxy::getRandomUserAgents`. -/
def OPERATING_SYSTEMS : List String :=
  ["Macintosh; Intel Mac OS X 10_15", "X11; Linux x86_64",
   "Windows NT 10.0; Win64; x64"]

/-- `AppProxy::getRandomUserAgents` (appproxy.cpp:712-730); `rand` is the
stream of successive `std::rand()` draws (four per user agent, in source
order). -/
def getRandomUserAgents (rand : Nat → Nat) (n : Nat) : List String :=
  (List.range n).map (fun i =>
    let osIndex := rand (4 * i) % 3
    let chromeMajorVersion := rand (4 * i + 1) % 30 + 50
    let chromeBuildVersion := rand (4 * i + 2) % 4000 + 1000
    let chromePatchVersion := rand (4 * i + 3) % 100
    "Mozilla/5.0 (" ++ OPERATING_SYSTEMS.getD osIndex ""
      ++ ") AppleWebKit/537.36 (KHTML, like Gecko) Chrome/"
      ++ toString chromeMajorVersion ++ ".0." ++ toString chromeBuildVersion
      ++ "." ++ toString chromePatchVersion ++ " Safari/537.36")

/-- `AppProxy::getV2RayStreamSettingsConfig` (appproxy.cpp:622-710). -/
def getV2RayStreamSettingsConfig (rand : Nat → Nat) (serverConfig : JObj) :
    StreamSettings :=
  let network := jGetStr serverConfig "network"
  { network := jGetVal serverConfig "network"
    security := toLowerQ (jGetStr serverConfig "networkSecurity")
    allowInsecure := jGetBool serverConfig "allowInsecure"
    settings :=
      if network = "tcp" then
        let tcpHeaderType := toLowerQ (jGetStr serverConfig "tcpHeaderType")
        .tcp
          { headerType := tcpHeaderType
            request :=
              if tcpHeaderType = "http" then
                some
                  { version := "1.1"
                    method := "GET"
                    path := ["/"]
                    hostHeader :=
                      ["www.baidu.com", "www.bing.com", "www.163.com",
                       "www.netease.com", "www.qq.com", "www.tencent.com",
                       "www.taobao.com", "www.tmall.com", "www.alibaba-inc.com",
                       "www.aliyun.com", "www.sensetime.com", "www.megvii.com"]
                    userAgent := getRandomUserAgents rand 24
                    acceptEncoding := ["gzip, deflate"]
                    connection := ["keep-alive"]
                    pragma := "no-cache" }
              else none
            response :=
              if tcpHeaderType = "http" then
                some
                  { version := "1.1"
                    status := "200"
                    reason := "OK"
                    contentType := ["text/html;charset=utf-8"]
                    transferEncoding := ["chunked"]
                    connection := ["keep-alive"]
                    pragma := "no-cache" }
              else none }
      else if network = "kcp" then
        .kcp
          { mtu := toIntDef (jGetStr serverConfig "kcpMtu")
            tti := toIntDef (jGetStr serverConfig "kcpTti")
            uplinkCapacity := toIntDef (jGetStr serverConfig "kcpUpLink")
            downlinkCapacity := toIntDef (jGetStr serverConfig "kcpDownLink")
            congestion := jGetBool serverConfig "kcpCongestion"
            readBufferSize := toIntDef (jGetStr serverConfig "kcpReadBuffer")
            writeBufferSize := toIntDef (jGetStr serverConfig "kcpWriteBuffer")
            headerType := toLowerQ (jGetStr serverConfig "packetHeader") }
      else if network = "ws" then
        .ws
          { path := jGetStr serverConfig "networkPath"
            hostHeader := jGetVal serverConfig "networkHost" }
      else if network = "http" then
        .http
          { host := [jGetStr serverConfig "networkHost"]
            path := [jGetStr serverConfig "networkPath"] }
      else if network = "domainsocket" then
        .domainsocket { path := jGetStr serverConfig "domainSocketFilePath" }
      else if network = "quic" then
        .quic
          { security := toLowerQ (jGetStr serverConfig "quicSecurity")
            key := jGetStr serverConfig "quicKey"
            headerType := toLowerQ (jGetStr serverConfig "packetHeader") }
      else .noExtra }

/-- `AppProxy::getPrettyV2RayConfig` (appproxy.cpp:590-620). -/
def getPrettyV2RayConfig (rand : Nat → Nat) (serverConfig : JObj) :
    VmessConfig :=
  { autoConnect := jGetBool serverConfig "autoConnect"
    serverName := jGetStr serverConfig "serverName"
    subscription :=
      if jContains serverConfig "subscription" then
        jGetStr serverConfig "subscription"
      else ""
    protocol := "vmess"
    mux :=
      { enabled := decide (toIntDef (jGetStr serverConfig "mux") ≠ 1)
        concurrency := toIntDef (jGetStr serverConfig "mux") }
    vnext :=
      [{ address := jGetStr serverConfig "serverAddr"
         port := toIntDef (jGetStr serverConfig "serverPort")
         users :=
           [{ id := jGetStr serverConfig "id"
              alterId := toIntDef (jGetStr serverConfig "alterId")
              security := toLowerQ (jGetStr serverConfig "security") }] }]
    tag := "proxy-vmess"
    streamSettings := getV2RayStreamSettingsConfig rand serverConfig }

/-- `AppProxy::getPrettyShadowsocksConfig` (appproxy.cpp:773-791). -/
def getPrettyShadowsocksConfig (serverConfig : JObj) : SsConfig :=
  { autoConnect := jGetBool serverConfig "autoConnect"
    serverName := jGetStr serverConfig "serverName"
    subscription :=
      if jContains serverConfig "subscription" then
        jGetStr serverConfig "subscription"
      else ""
    protocol := "shadowsocks"
    address := jGetStr serverConfig "serverAddr"
    port := toIntDef (jGetStr serverConfig "serverPort")
    method := toLowerQ (jGetStr serverConfig "encryption")
    password := jGetStr serverConfig "password"
    streamNetwork := "tcp"
    tag := "proxy-shadowsocks" }

/-- A kcp-transport record whose four capacity/buffer fields all hold the
integer values 5..8, each exceeding the lower bound 0, with in-range
`kcpMtu`/`kcpTti` and a non-empty packet header. -/
def kcpCapacityRecord : JObj :=
  [("kcpMtu", .str "1000"), ("kcpTti", .str "50"), ("kcpUpLink", .str "5"),
   ("kcpDownLink", .str "6"), ("kcpReadBuffer", .str "7"),
   ("kcpWriteBuffer", .str "8"), ("packetHeader", .str "none")]

theorem jGetStr_eq_empty_of_not_contains (o : JObj) (k : String)
    (h : jContains o k = false) : jGetStr o k = "" := by
  unfold jGetStr jGetVal
  have hfind : o.find? (fun p => decide (p.1 = k)) = none := by
    rw [List.find?_eq_none]
    intro x hx hdec
    have hxk : x.1 = k := of_decide_eq_true hdec
    have hc : jContains o k = true := by
      unfold jContains
      exact List.any_eq_true.mpr ⟨x, hx, by simp [hxk]⟩
    rw [h] at hc
    cases hc
  simp [hfind]

theorem getStringConfigError_cases (cfg : JObj) (k n : String)
    (cks : List (String → Bool)) :
    getStringConfigError cfg k n cks = missingMsg n ∨
      getStringConfigError cfg k n cks = invalidMsg n ∨
      getStringConfigError cfg k n cks = "" := by
  unfold getStringConfigError
  split_ifs <;> simp

theorem getNumericConfigError_cases (cfg : JObj) (k n : String) (lo hi : Int) :
    getNumericConfigError cfg k n lo hi = missingMsg n ∨
      getNumericConfigError cfg k n lo hi = invalidMsg n ∨
      getNumericConfigError cfg k n lo hi = aboveMsg n lo ∨
      getNumericConfigError cfg k n lo hi = betweenMsg n lo hi ∨
      getNumericConfigError cfg k n lo hi = "" := by
  unfold getNumericConfigError
  split_ifs with h1
  · exact Or.inl rfl
  · rcases hq : qtToInt (jGetStr cfg k) with _ | v
    · simp [hq]
    · simp only [hq]
      split_ifs <;> simp

theorem getNumericConfigError_cases' (cfg : JObj) (k n : String) (lo hi : Int)
    (hne : hi ≠ -127) :
    getNumericConfigError cfg k n lo hi = missingMsg n ∨
      getNumericConfigError cfg k n lo hi = invalidMsg n ∨
      getNumericConfigError cfg k n lo hi = betweenMsg n lo hi ∨
      getNumericConfigError cfg k n lo hi = "" := by
  unfold getNumericConfigError
  split_ifs with h1
  · exact Or.inl rfl
  · rcases hq : qtToInt (jGetStr cfg k) with _ | v
    · simp [hq]
    · simp only [hq]
      split_ifs with h2 h3
      · exact absurd h2.1 hne
      · simp
      · simp

theorem getNumericConfigError_eq_empty_iff (cfg : JObj) (k n : String)
    (lo hi : Int) (hm : missingMsg n ≠ "") (hinv : invalidMsg n ≠ "")
    (hab : aboveMsg n lo ≠ "") (hbet : betweenMsg n lo hi ≠ "") :
    getNumericConfigError cfg k n lo hi = "" ↔
      ∃ v, qtToInt (jGetStr cfg k) = some v ∧ lo ≤ v ∧ v ≤ hi := by
  unfold getNumericConfigError
  split_ifs with h1
  · have hge : jGetStr cfg k = "" := by
      rcases h1 with h | h
      · exact jGetStr_eq_empty_of_not_contains cfg k (Bool.eq_false_iff.mpr h)
      · exact h
    constructor
    · intro h'; exact absurd h' hm
    · rintro ⟨v, hv, -⟩
      rw [hge] at hv
      have : qtToInt "" = none := by decide
      rw [this] at hv
      cases hv
  · rcases hq : qtToInt (jGetStr cfg k) with _ | v
    · simp only [hq]
      constructor
      · intro h'; exact absurd h' hinv
      · rintro ⟨v, hv, -⟩; cases hv
    · simp only [hq]
      split_ifs with h2 h3
      · constructor
        · intro h'; exact absurd h' hab
        · rintro ⟨v', hv', hlo, -⟩
          cases hv'
          omega
      · constructor
        · intro h'; exact absurd h' hbet
        · rintro ⟨v', hv', hlo, hhi⟩
          cases hv'
          omega
      · constructor
        · intro _; exact ⟨v, rfl, by omega, by omega⟩
        · intro _; rfl

/-- The three messages `getNumericConfigError` can produce for the
`Server Port` field with bounds `0, 65535`. -/
def serverPortMsgs : List String :=
  [missingMsg "Server Port", invalidMsg "Server Port",
   betweenMsg "Server Port" 0 65535]

/-- Whether a validator output contains an error message for the
`Server Port` field. -/
def hasServerPortError (errors : List String) : Bool :=
  errors.any (fun e => serverPortMsgs.contains e)

theorem strCfgError_notPort (cfg : JObj) (k n : String)
    (cks : List (String → Bool))
    (h1 : serverPortMsgs.contains (missingMsg n) = false)
    (h2 : serverPortMsgs.contains (invalidMsg n) = false) :
    serverPortMsgs.contains (getStringConfigError cfg k n cks) = false := by
  rcases getStringConfigError_cases cfg k n cks with h | h | h <;> rw [h]
  · exact h1
  · exact h2
  · decide

theorem numCfgError_notPort (cfg : JObj) (k n : String) (lo hi : Int)
    (h1 : serverPortMsgs.contains (missingMsg n) = false)
    (h2 : serverPortMsgs.contains (invalidMsg n) = false)
    (h3 : serverPortMsgs.contains (aboveMsg n lo) = false)
    (h4 : serverPortMsgs.contains (betweenMsg n lo hi) = false) :
    serverPortMsgs.contains (getNumericConfigError cfg k n lo hi) = false := by
  rcases getNumericConfigError_cases cfg k n lo hi with h | h | h | h | h <;> rw [h]
  · exact h1
  · exact h2
  · exact h3
  · exact h4
  · decide

theorem streamErrors_notPort (fs : String → Bool) (cfg : JObj) (net : String) :
    ∀ e ∈ getV2RayStreamSettingsErrors fs cfg net,
      serverPortMsgs.contains e = false := by
  unfold getV2RayStreamSettingsErrors
  split_ifs <;> intro e he <;>
    simp only [List.mem_cons, List.not_mem_nil, or_false] at he
  · rcases he with rfl | rfl | rfl | rfl | rfl | rfl | rfl
    · exact numCfgError_notPort cfg "kcpMtu" "MTU" 576 1460
        (by decide) (by decide) (by decide) (by decide)
    · exact numCfgError_notPort cfg "kcpTti" "TTI" 10 100
        (by decide) (by decide) (by decide) (by decide)
    · exact numCfgError_notPort cfg "kcpUpLink" "Uplink Capacity" 0 (-127)
        (by decide) (by decide) (by decide) (by decide)
    · exact numCfgError_notPort cfg "kcpDownLink" "Downlink Capacity" 0 (-127)
        (by decide) (by decide) (by decide) (by decide)
    · exact numCfgError_notPort cfg "kcpReadBuffer" "Read Buffer Size" 0 (-127)
        (by decide) (by decide) (by decide) (by decide)
    · exact numCfgError_notPort cfg "kcpWriteBuffer" "Write Buffer Size" 0 (-127)
        (by decide) (by decide) (by decide) (by decide)
    · exact strCfgError_notPort cfg "packetHeader" "Packet Header" []
        (by decide) (by decide)
  · rcases he with rfl | rfl
    · exact strCfgError_notPort cfg "networkHost" "Host" _ (by decide) (by decide)
    · exact strCfgError_notPort cfg "networkPath" "Path" [] (by decide) (by decide)
  · rcases he with rfl
    exact strCfgError_notPort cfg "domainSocketFilePath" "Socket File Path" _
      (by decide) (by decide)
  · rcases he with rfl | rfl | rfl
    · exact strCfgError_notPort cfg "quicSecurity" "QUIC Security" []
        (by decide) (by decide)
    · exact strCfgError_notPort cfg "packetHeader" "Packet Header" []
        (by decide) (by decide)
    · exact strCfgError_notPort cfg "quicKey" "QUIC Key" [] (by decide) (by decide)

theorem hasPortError_v2ray_iff (fs : String → Bool) (cfg : JObj) :
    hasServerPortError (getV2RayServerConfigErrors fs cfg) = true ↔
      getNumericConfigError cfg "serverPort" "Server Port" 0 65535 ≠ "" := by
  constructor
  · intro h
    rcases List.any_eq_true.mp h with ⟨e, he, hc⟩
    rcases List.mem_filter.mp he with ⟨hmem, hne⟩
    have hne' : e ≠ "" := by simpa using hne
    rcases List.mem_append.mp hmem with hA | hS
    · simp only [List.mem_cons, List.not_mem_nil, or_false] at hA
      rcases hA with rfl | rfl | rfl | rfl | rfl | rfl | rfl | rfl | rfl
      · rw [strCfgError_notPort cfg "serverName" "Server Name" []
          (by decide) (by decide)] at hc
        exact absurd hc (by decide)
      · rw [strCfgError_notPort cfg "serverAddr" "Server Address" _
          (by decide) (by decide)] at hc
        exact absurd hc (by decide)
      · exact hne'
      · rw [strCfgError_notPort cfg "id" "ID" [] (by decide) (by decide)] at hc
        exact absurd hc (by decide)
      · rw [numCfgError_notPort cfg "alterId" "Alter ID" 0 65535
          (by decide) (by decide) (by decide) (by decide)] at hc
        exact absurd hc (by decide)
      · rw [strCfgError_notPort cfg "security" "Security" []
          (by decide) (by decide)] at hc
        exact absurd hc (by decide)
      · rw [numCfgError_notPort cfg "mux" "MUX" (-1) 1024
          (by decide) (by decide) (by decide) (by decide)] at hc
        exact absurd hc (by decide)
      · rw [strCfgError_notPort cfg "network" "Network" []
          (by decide) (by decide)] at hc
        exact absurd hc (by decide)
      · rw [strCfgError_notPort cfg "networkSecurity" "Network Security" []
          (by decide) (by decide)] at hc
        exact absurd hc (by decide)
    · rw [streamErrors_notPort fs cfg (jGetStr cfg "network") e hS] at hc
      exact absurd hc (by decide)
  · intro hne
    rcases getNumericConfigError_cases' cfg "serverPort" "Server Port" 0 65535
        (by decide) with h | h | h | h
    · refine List.any_eq_true.mpr
        ⟨getNumericConfigError cfg "serverPort" "Server Port" 0 65535,
          List.mem_filter.mpr ⟨List.mem_append.mpr (Or.inl (by simp)),
            decide_eq_true hne⟩, by rw [h]; decide⟩
    · refine List.any_eq_true.mpr
        ⟨getNumericConfigError cfg "serverPort" "Server Port" 0 65535,
          List.mem_filter.mpr ⟨List.mem_append.mpr (Or.inl (by simp)),
            decide_eq_true hne⟩, by rw [h]; decide⟩
    · refine List.any_eq_true.mpr
        ⟨getNumericConfigError cfg "serverPort" "Server Port" 0 65535,
          List.mem_filter.mpr ⟨List.mem_append.mpr (Or.inl (by simp)),
            decide_eq_true hne⟩, by rw [h]; decide⟩
    · exact absurd h hne

theorem hasPortError_ss_iff (cfg : JObj) :
    hasServerPortError (getShadowsocksServerConfigErrors cfg) = true ↔
      getNumericConfigError cfg "serverPort" "Server Port" 0 65535 ≠ "" := by
  constructor
  · intro h
    rcases List.any_eq_true.mp h with ⟨e, he, hc⟩
    rcases List.mem_filter.mp he with ⟨hmem, hne⟩
    have hne' : e ≠ "" := by simpa using hne
    simp only [List.mem_cons, List.not_mem_nil, or_false] at hmem
    rcases hmem with rfl | rfl | rfl | rfl | rfl
    · rw [strCfgError_notPort cfg "serverName" "Server Name" []
        (by decide) (by decide)] at hc
      exact absurd hc (by decide)
    · rw [strCfgError_notPort cfg "serverAddr" "Server Address" _
        (by decide) (by decide)] at hc
      exact absurd hc (by decide)
    · exact hne'
    · rw [strCfgError_notPort cfg "encryption" "Security" []
        (by decide) (by decide)] at hc
      exact absurd hc (by decide)
    · rw [strCfgError_notPort cfg "password" "Password" []
        (by decide) (by decide)] at hc
      exact absurd hc (by decide)
  · intro hne
    rcases getNumericConfigError_cases' cfg "serverPort" "Server Port" 0 65535
        (by decide) with h | h | h | h
    · refine List.any_eq_true.mpr
        ⟨getNumericConfigError cfg "serverPort" "Server Port" 0 65535,
          List.mem_filter.mpr ⟨by simp, decide_eq_true hne⟩, by rw [h]; decide⟩
    · refine List.any_eq_true.mpr
        ⟨getNumericConfigError cfg "serverPort" "Server Port" 0 65535,
          List.mem_filter.mpr ⟨by simp, decide_eq_true hne⟩, by rw [h]; decide⟩
    · refine List.any_eq_true.mpr
        ⟨getNumericConfigError cfg "serverPort" "Server Port" 0 65535,
          List.mem_filter.mpr ⟨by simp, decide_eq_true hne⟩, by rw [h]; decide⟩
    · exact absurd h hne

/-- A full VMESS profile record using the kcp transport, valid in every
field, whose four capacity/buffer fields hold the integers 5..8 (all
exceeding the lower bound 0). -/
def kcpVmessRecord : JObj :=
  [("serverName", .str "kcp1"), ("serverAddr", .str "1.2.3.4"),
   ("serverPort", .str "443"), ("id", .str "uid"), ("alterId", .str "0"),
   ("security", .str "auto"), ("mux", .str "-1"), ("network", .str "kcp"),
   ("networkSecurity", .str "none")] ++ kcpCapacityRecord

/-- C1: the claim says the `upperBound = -127` (UNBOUNDED_ABOVE) variant of
`getNumericConfigError` accepts any value above the lower bound 0, so the
kcp capacity/buffer fields holding 5..8 should produce no error.  The code
disagrees: because the closed-range check after the sentinel branch is not
guarded by `upperBound != -127`, every parsed value `v ≥ 0` satisfies
`v > -127` and is rejected with the (nonsensical) message
"should between 0 and -127", so validation of this fully sensible kcp
record reports exactly the four bogus range errors.  The sentinel branch
and its dedicated "should above" message show the spec is the intent and
the unguarded check a slip (code bug). -/
theorem claim_C1 :
    qtToInt (jGetStr kcpVmessRecord "kcpUpLink") = some 5 ∧
    getV2RayServerConfigErrors (fun _ => false) kcpVmessRecord =
      [betweenMsg "Uplink Capacity" 0 (-127),
       betweenMsg "Downlink Capacity" 0 (-127),
       betweenMsg "Read Buffer Size" 0 (-127),
       betweenMsg "Write Buffer Size" 0 (-127)] := by
  refine ⟨by decide, by decide⟩

/-- C2 (amended): VMESS and Shadowsocks profile validation accept the
`serverPort` field exactly when it parses to an integer in the inclusive
range 0–65535 (the code passes lower bound 0, not 1, at appproxy.cpp:461
and :761); in particular the port string "0" produces no error. -/
theorem claim_C2 (fs : String → Bool) (cfg : JObj) :
    (hasServerPortError (getV2RayServerConfigErrors fs cfg) = false ↔
      ∃ v, qtToInt (jGetStr cfg "serverPort") = some v ∧ 0 ≤ v ∧ v ≤ 65535) ∧
    (hasServerPortError (getShadowsocksServerConfigErrors cfg) = false ↔
      ∃ v, qtToInt (jGetStr cfg "serverPort") = some v ∧ 0 ≤ v ∧ v ≤ 65535) := by
  have hemp := getNumericConfigError_eq_empty_iff cfg "serverPort" "Server Port"
    0 65535 (by decide) (by decide) (by decide) (by decide)
  constructor
  · rw [← hemp]
    constructor
    · intro h
      by_contra h0
      rw [(hasPortError_v2ray_iff fs cfg).mpr h0] at h
      exact absurd h (by decide)
    · intro h
      cases hb : hasServerPortError (getV2RayServerConfigErrors fs cfg) with
      | false => rfl
      | true => exact absurd h ((hasPortError_v2ray_iff fs cfg).mp hb)
  · rw [← hemp]
    constructor
    · intro h
      by_contra h0
      rw [(hasPortError_ss_iff cfg).mpr h0] at h
      exact absurd h (by decide)
    · intro h
      cases hb : hasServerPortError (getShadowsocksServerConfigErrors cfg) with
      | false => rfl
      | true => exact absurd h ((hasPortError_ss_iff cfg).mp hb)

/-- A VMESS profile record that is valid in every field except that its
server port field is the string "0". -/
def vmessPortZeroRecord : JObj :=
  [("serverName", .str "s1"), ("serverAddr", .str "1.2.3.4"),
   ("serverPort", .str "0"), ("id", .str "uid"), ("alterId", .str "0"),
   ("security", .str "auto"), ("mux", .str "-1"), ("network", .str "tcp"),
   ("networkSecurity", .str "none")]

/-- Counterexample to C2 as stated: the claim says a port value of 0
produces a range error message for the `Server Port` field, but validating
this record (server port "0") yields no error at all. -/
theorem claim_C2_counterexample :
    jGetStr vmessPortZeroRecord "serverPort" = "0" ∧
    getV2RayServerConfigErrors (fun _ => false) vmessPortZeroRecord = [] := by
  refine ⟨by decide, by decide⟩

/-- Witness for C2 (amended) at the concrete record with port "0". -/
theorem claim_C2_witness :
    hasServerPortError
      (getV2RayServerConfigErrors (fun _ => false) vmessPortZeroRecord) = false :=
  (claim_C2 (fun _ => false) vmessPortZeroRecord).1.mpr
    ⟨0, by decide, by decide, by decide⟩

theorem muxError_empty_of_valid (fs : String → Bool) (cfg : JObj)
    (h : getV2RayServerConfigErrors fs cfg = []) :
    getNumericConfigError cfg "mux" "MUX" (-1) 1024 = "" := by
  by_contra h0
  have hmem : getNumericConfigError cfg "mux" "MUX" (-1) 1024 ∈
      getV2RayServerConfigErrors fs cfg := by
    unfold getV2RayServerConfigErrors
    exact List.mem_filter.mpr
      ⟨List.mem_append.mpr (Or.inl (by simp)), decide_eq_true h0⟩
  rw [h] at hmem
  exact absurd hmem (List.not_mem_nil _)

/-- C3: for every VMESS profile record accepted by validation, the built
runtime configuration's mux object is
`{enabled: muxConcurrency != 1, concurrency: muxConcurrency}` where
`muxConcurrency` is the parsed integer of the `mux` field: `enabled` is
true for every concurrency other than exactly 1 — including the disabled
sentinel -1 — and the concurrency value is preserved unmodified
(appproxy.cpp:598-602). -/
theorem claim_C3 (fs : String → Bool) (rand : Nat → Nat) (cfg : JObj)
    (h : getV2RayServerConfigErrors fs cfg = []) :
    ∃ m, qtToInt (jGetStr cfg "mux") = some m ∧
      (getPrettyV2RayConfig rand cfg).mux =
        { enabled := decide (m ≠ 1), concurrency := m } ∧
      (m = -1 → (getPrettyV2RayConfig rand cfg).mux.enabled = true) := by
  obtain ⟨m, hm, -, -⟩ :=
    (getNumericConfigError_eq_empty_iff cfg "mux" "MUX" (-1) 1024
      (by decide) (by decide) (by decide) (by decide)).mp
      (muxError_empty_of_valid fs cfg h)
  have ht : toIntDef (jGetStr cfg "mux") = m := by
    unfold toIntDef
    rw [hm]
    rfl
  refine ⟨m, hm, ?_, ?_⟩
  · simp [getPrettyV2RayConfig, ht]
  · intro hm1
    simp [getPrettyV2RayConfig, ht, hm1]

/-- Witness for C3 at a concrete fully valid VMESS record with mux "-1". -/
theorem claim_C3_witness :
    ∃ m, qtToInt (jGetStr vmessPortZeroRecord "mux") = some m ∧
      (getPrettyV2RayConfig (fun _ => 0) vmessPortZeroRecord).mux =
        { enabled := decide (m ≠ 1), concurrency := m } ∧
      (m = -1 →
        (getPrettyV2RayConfig (fun _ => 0) vmessPortZeroRecord).mux.enabled = true) :=
  claim_C3 (fun _ => false) (fun _ => 0) vmessPortZeroRecord (by decide)

theorem ne_pac_str (cfg : JObj) (k n : String) (cks : List (String → Bool))
    (h1 : pacEqualMsg ≠ missingMsg n) (h2 : pacEqualMsg ≠ invalidMsg n) :
    pacEqualMsg ≠ getStringConfigError cfg k n cks := by
  rcases getStringConfigError_cases cfg k n cks with h | h | h <;> rw [h]
  · exact h1
  · exact h2
  · decide

theorem ne_pac_num (cfg : JObj) (k n : String) (lo hi : Int)
    (h1 : pacEqualMsg ≠ missingMsg n) (h2 : pacEqualMsg ≠ invalidMsg n)
    (h3 : pacEqualMsg ≠ aboveMsg n lo) (h4 : pacEqualMsg ≠ betweenMsg n lo hi) :
    pacEqualMsg ≠ getNumericConfigError cfg k n lo hi := by
  rcases getNumericConfigError_cases cfg k n lo hi with h | h | h | h | h <;> rw [h]
  · exact h1
  · exact h2
  · exact h3
  · exact h4
  · decide

/-- C9 (amended): `getAppConfigErrors` reports the cross-field message
"'PAC Server Port' can not be the same as 'Listening Port'." exactly once
when the two port fields are equal as raw strings, and not at all
otherwise — the comparison at appproxy.cpp:197 is string equality, not
numeric equality. -/
theorem claim_C9 (cfg : JObj) :
    (getAppConfigErrors cfg).count pacEqualMsg =
      if jGetStr cfg "pacPort" = jGetStr cfg "serverPort" then 1 else 0 := by
  unfold getAppConfigErrors
  rw [List.filter_append, List.filter_append, List.count_append,
    List.count_append]
  have hA : List.count pacEqualMsg
      (([getStringConfigError cfg "language" "Language" [],
         getStringConfigError cfg "serverProtocol" "Local Server Protocol" [],
         getStringConfigError cfg "serverIp" "Listening IP Address" [isIpAddrValid],
         getNumericConfigError cfg "serverPort" "Listening Port" 1 65535,
         getNumericConfigError cfg "pacPort" "PAC Server Port" 1 65535]).filter
        (fun e => ¬ e = "")) = 0 := by
    rw [List.count_eq_zero]
    intro hmem
    rcases List.mem_filter.mp hmem with ⟨hm, -⟩
    simp only [List.mem_cons, List.not_mem_nil, or_false] at hm
    rcases hm with h | h | h | h | h
    · exact absurd h (ne_pac_str cfg "language" "Language" [] (by decide) (by decide))
    · exact absurd h (ne_pac_str cfg "serverProtocol" "Local Server Protocol" []
        (by decide) (by decide))
    · exact absurd h (ne_pac_str cfg "serverIp" "Listening IP Address" _
        (by decide) (by decide))
    · exact absurd h (ne_pac_num cfg "serverPort" "Listening Port" 1 65535
        (by decide) (by decide) (by decide) (by decide))
    · exact absurd h (ne_pac_num cfg "pacPort" "PAC Server Port" 1 65535
        (by decide) (by decide) (by decide) (by decide))
  have hC : List.count pacEqualMsg
      ((if ¬ jContains cfg "dns" ∨ jGetStr cfg "dns" = "" then
          [missingMsg "DNS Servers"]
        else if (qSplitC (jGetStr cfg "dns") ',').any
            (fun dnsServer => ¬ isIpAddrValid (qTrim dnsServer)) then
          [dnsInvalidMsg]
        else []).filter (fun e => ¬ e = "")) = 0 := by
    split_ifs <;> decide
  rw [hA, hC]
  split_ifs with hpac
  · decide
  · decide

/-- An app-config record in which the PAC port and the listening port are
numerically equal in-range ports (80) written as different strings. -/
def appConfigRecord8080 : JObj :=
  [("language", .str "en"), ("serverProtocol", .str "SOCKS"),
   ("serverIp", .str "127.0.0.1"), ("serverPort", .str "80"),
   ("pacPort", .str "080"), ("dns", .str "8.8.8.8")]

/-- Counterexample to C9 as stated: in this record the PAC server port
equals the listening port (both parse to 80, both within 1–65535), yet
validation reports no error at all — in particular not the cross-field
error — because the code compares the two fields as strings and
"080" ≠ "80". -/
theorem claim_C9_counterexample :
    qtToInt (jGetStr appConfigRecord8080 "serverPort") = some 80 ∧
    qtToInt (jGetStr appConfigRecord8080 "pacPort") = some 80 ∧
    getAppConfigErrors appConfigRecord8080 = [] := by
  refine ⟨by decide, by decide, by decide⟩

/-- The outcome of `AppProxy::setAppConfig`: the object passed to
`configurator.setAppConfig` (none when the call is never made), whether
`v2ray.restart()` was requested, and the field errors reported through the
`appConfigError` signal (the code emits them joined by a newline). -/
structure AppConfigSetResult where
  persisted : Option JObj
  restartRequested : Bool
  reportedErrors : List String
deriving Repr

/-- `AppProxy::setAppConfig` (appproxy.cpp:160-181): validate, and on any
error report and return before touching anything; otherwise coerce the two
port fields from string to int, persist the whole object, and request an
engine restart.  (The `setAutoStart`/`retranslate` calls touch the OS
autostart registration and the UI language, not the stored AppConfig, and
are not modelled.) -/
def setAppConfigM (appConfig : JObj) : AppConfigSetResult :=
  let appConfigErrors := getAppConfigErrors appConfig
  if 0 < appConfigErrors.length then
    { persisted := none, restartRequested := false,
      reportedErrors := appConfigErrors }
  else
    let appConfig' := jInsert appConfig "serverPort"
      (.num (toIntDef (jGetStr appConfig "serverPort")))
    let appConfig'' := jInsert appConfig' "pacPort"
      (.num (toIntDef (jGetStr appConfig' "pacPort")))
    { persisted := some appConfig'', restartRequested := true,
      reportedErrors := [] }

/-- C7: if validating a setAppConfig update yields at least one field
error, nothing is persisted (the stored AppConfig is untouched), no engine
restart is requested, and the errors are reported as the validator's list
of field messages; the update is persisted exactly when the error list is
empty. -/
theorem claim_C7 (cfg : JObj) :
    (getAppConfigErrors cfg ≠ [] →
      (setAppConfigM cfg).persisted = none ∧
      (setAppConfigM cfg).restartRequested = false ∧
      (setAppConfigM cfg).reportedErrors = getAppConfigErrors cfg) ∧
    ((setAppConfigM cfg).persisted.isSome ↔ getAppConfigErrors cfg = []) := by
  constructor
  · intro hne
    have hlen : 0 < (getAppConfigErrors cfg).length := List.length_pos.mpr hne
    simp [setAppConfigM, hlen]
  · constructor
    · intro hs
      by_contra hne
      have hlen : 0 < (getAppConfigErrors cfg).length := List.length_pos.mpr hne
      simp [setAppConfigM, hlen] at hs
    · intro hnil
      have hlen : ¬ 0 < (getAppConfigErrors cfg).length := by simp [hnil]
      simp [setAppConfigM, hlen]

/-- Witness for C7 at the empty record, which fails validation. -/
theorem claim_C7_witness :
    (setAppConfigM []).persisted = none ∧
    (setAppConfigM []).restartRequested = false ∧
    (setAppConfigM []).reportedErrors = getAppConfigErrors [] :=
  (claim_C7 []).1 (by decide)

/-- `QMap::value`-style lookup in an association list (first binding). -/
def lookupQ {α : Type} : List (String × α) → String → Option α
  | [], _ => none
  | p :: rest, k => if p.1 = k then some p.2 else lookupQ rest k

/-- `QMap::insert`: replace the binding if the key is present, else add
it. -/
def qmapInsertQ {α : Type} : List (String × α) → String → α → List (String × α)
  | [], k, v => [(k, v)]
  | p :: rest, k, v =>
    if p.1 = k then (k, v) :: rest else p :: qmapInsertQ rest k v

/-- `QMap::remove`. -/
def removeQ {α : Type} (m : List (String × α)) (k : String) :
    List (String × α) :=
  m.filter (fun p => ¬ p.1 = k)

/-- `AppProxy::returnServerLatency` (appproxy.cpp:416-424): fold the
delivered result map into the `serverLatency` cache, key by key (the
delivered `QVariant` values are read with `toInt`, modelled as `Int`). -/
def returnServerLatency (serverLatency : List (String × Int))
    (latency : List (String × Int)) : List (String × Int) :=
  latency.foldl (fun t l => qmapInsertQ t l.1 l.2) serverLatency

/-- The last binding for `k` in a delivered result list (a `QMap` has
unique keys; for a general list the last binding wins, matching repeated
insertion). -/
def lookupLastQ (m : List (String × Int)) (k : String) : Option Int :=
  lookupQ m.reverse k

theorem lookup_insertQ {α : Type} (t : List (String × α)) (k : String) (v : α)
    (x : String) :
    lookupQ (qmapInsertQ t k v) x = if k = x then some v else lookupQ t x := by
  induction t with
  | nil => simp only [qmapInsertQ, lookupQ]
  | cons p rest ih =>
    by_cases hp : p.1 = k
    · have h1 : qmapInsertQ (p :: rest) k v = (k, v) :: rest := by
        simp [qmapInsertQ, hp]
      rw [h1]
      by_cases hk : k = x
      · subst hk
        simp [lookupQ]
      · have hpx : ¬ p.1 = x := fun h => hk (hp.symm.trans h)
        simp [lookupQ, hk, hpx]
    · have h1 : qmapInsertQ (p :: rest) k v = p :: qmapInsertQ rest k v := by
        simp [qmapInsertQ, hp]
      rw [h1]
      by_cases hpx : p.1 = x
      · have hk : ¬ k = x := fun h => hp (hpx.trans h.symm)
        simp [lookupQ, hpx, hk]
      · simp [lookupQ, hpx, ih]

theorem lookupQ_append {α : Type} (l1 l2 : List (String × α)) (x : String) :
    lookupQ (l1 ++ l2) x =
      match lookupQ l1 x with
      | some v => some v
      | none => lookupQ l2 x := by
  induction l1 with
  | nil => simp [lookupQ]
  | cons p rest ih =>
    by_cases hp : p.1 = x <;> simp [lookupQ, hp, ih]

/-- C8: delivering a probe result updates the latency cache exactly at the
keys present in the delivered map (to the delivered value) and leaves
every other key unchanged; in particular no delivery clears the cache, so
a profile with no result in a round keeps its cached latency. -/
theorem claim_C8 (serverLatency latency : List (String × Int)) (k : String) :
    lookupQ (returnServerLatency serverLatency latency) k =
      match lookupLastQ latency k with
      | some v => some v
      | none => lookupQ serverLatency k := by
  induction latency generalizing serverLatency with
  | nil => simp [returnServerLatency, lookupLastQ, lookupQ]
  | cons a rest ih =>
    show lookupQ (returnServerLatency (qmapInsertQ serverLatency a.1 a.2) rest) k
      = _
    rw [ih]
    unfold lookupLastQ
    rw [List.reverse_cons, lookupQ_append]
    cases hr : lookupQ rest.reverse k with
    | some v => rfl
    | none =>
      by_cases ha : a.1 = k <;>
        simp [lookupQ, lookup_insertQ, ha]

/-- Base64 value of a character; '=' and every character outside the
alphabet yield `none`. -/
def base64Val (c : Char) : Option Nat :=
  if 'A' ≤ c ∧ c ≤ 'Z' then some (c.toNat - 65)
  else if 'a' ≤ c ∧ c ≤ 'z' then some (c.toNat - 97 + 26)
  else if '0' ≤ c ∧ c ≤ '9' then some (c.toNat - 48 + 52)
  else if c = '+' then some 62
  else if c = '/' then some 63
  else none

/-- `QByteArray::fromBase64` in Qt 5's default mode: characters outside the
alphabet (including padding) are skipped, bits are accumulated six at a
time and a byte is emitted whenever eight are available. -/
def qFromBase64 (cs : List Char) : List Nat :=
  let st := cs.foldl
    (fun (st : Nat × Nat × List Nat) c =>
      match base64Val c with
      | none => st
      | some d =>
        let buf := st.1 * 64 + d
        let nbits := st.2.1 + 6
        if 8 ≤ nbits then
          (buf % 2 ^ (nbits - 8), nbits - 8, buf / 2 ^ (nbits - 8) :: st.2.2)
        else (buf, nbits, st.2.2))
    (0, 0, [])
  st.2.2.reverse

/-- Latin-1 view of a byte sequence as a string (the `QByteArray` to
`QString` conversion; multi-byte UTF-8 is not decoded — the data handled
here is ASCII). -/
def bytesToStr (bs : List Nat) : String :=
  String.mk (bs.map (fun b => Char.ofNat (b % 256)))

/-- An opening curly brace (written via its code point to keep string and
character literals brace-free). -/
def lbraceC : Char := Char.ofNat 123

/-- A closing curly brace. -/
def rbraceC : Char := Char.ofNat 125

/-- JSON insignificant whitespace. -/
def skipWsJ : List Char → List Char
  | [] => []
  | c :: cs =>
    if c = ' ' ∨ c = '\t' ∨ c = '\n' ∨ c = '\r' then skipWsJ cs else c :: cs

/-- Hexadecimal digit value. -/
def hexValC (c : Char) : Option Nat :=
  if '0' ≤ c ∧ c ≤ '9' then some (c.toNat - 48)
  else if 'a' ≤ c ∧ c ≤ 'f' then some (c.toNat - 97 + 10)
  else if 'A' ≤ c ∧ c ≤ 'F' then some (c.toNat - 65 + 10)
  else none

/-- Value of a run of decimal digits. -/
def digitsVal (ds : List Char) : Nat :=
  ds.foldl (fun a c => a * 10 + (c.toNat - 48)) 0

/-- A JSON number (RFC 8259 grammar).  An integral literal becomes
`JVal.num`; a literal with a fraction or exponent becomes `JVal.numNI`
(`QJsonValue::toInt` rejects non-integral doubles; integral values written
with a fraction or exponent, and double-precision rounding, are not
modelled — the share-link payloads handled here use plain integers). -/
def parseJNum (cs : List Char) : Option (JVal × List Char) :=
  let (neg, cs1) :=
    match cs with
    | '-' :: rest => (true, rest)
    | _ => (false, cs)
  match cs1 with
  | [] => none
  | c :: _ =>
    if ¬ c.isDigit then none
    else
      let (ds, rest1) :=
        if c = '0' then ([c], cs1.tail)
        else (cs1.takeWhile Char.isDigit, cs1.dropWhile Char.isDigit)
      let intVal : Int := (digitsVal ds : Nat)
      let (isInt1, rest2) :=
        match rest1 with
        | '.' :: r =>
          if (r.takeWhile Char.isDigit).length = 0 then (true, rest1)
          else (false, r.dropWhile Char.isDigit)
        | _ => (true, rest1)
      let (isInt2, rest3) :=
        match rest2 with
        | e :: r =>
          if e = 'e' ∨ e = 'E' then
            let r' :=
              match r with
              | s :: rr => if s = '+' ∨ s = '-' then rr else r
              | [] => r
            if (r'.takeWhile Char.isDigit).length = 0 then (true, rest2)
            else (false, r'.dropWhile Char.isDigit)
          else (true, rest2)
        | [] => (true, rest2)
      if isInt1 ∧ isInt2 then
        some (.num (if neg then -intVal else intVal), rest3)
      else some (.numNI, rest3)

mutual

/-- A JSON value (strict grammar, as `QJsonDocument::fromJson`), by fuel
recursion; every recursive call consumes at least one input character, so
fuel `length + 2` always suffices. -/
def parseJVal : Nat → List Char → Option (JVal × List Char)
  | 0, _ => none
  | fuel + 1, cs =>
    match skipWsJ cs with
    | [] => none
    | c :: rest =>
      if c = '"' then
        (parseJStr fuel rest []).map (fun p => (JVal.str p.1, p.2))
      else if c = lbraceC then parseJObjFields fuel rest [] true
      else if c = '[' then parseJArrElems fuel rest [] true
      else if c = 't' then
        match rest with
        | 'r' :: 'u' :: 'e' :: rest' => some (.jbool true, rest')
        | _ => none
      else if c = 'f' then
        match rest with
        | 'a' :: 'l' :: 's' :: 'e' :: rest' => some (.jbool false, rest')
        | _ => none
      else if c = 'n' then
        match rest with
        | 'u' :: 'l' :: 'l' :: rest' => some (.null, rest')
        | _ => none
      else parseJNum (c :: rest)

/-- The fields of a JSON object, after the opening brace (`isFirst`) or
after a comma; duplicate keys are overwritten as in `QJsonObject`. -/
def parseJObjFields : Nat → List Char → List (String × JVal) → Bool →
    Option (JVal × List Char)
  | 0, _, _, _ => none
  | fuel + 1, cs, acc, isFirst =>
    match skipWsJ cs with
    | [] => none
    | c :: rest =>
      if c = rbraceC then
        if isFirst then some (.obj acc, rest) else none
      else if c = '"' then
        match parseJStr fuel rest [] with
        | none => none
        | some (key, rest1) =>
          match skipWsJ rest1 with
          | ':' :: rest2 =>
            match parseJVal fuel rest2 with
            | none => none
            | some (v, rest3) =>
              match skipWsJ rest3 with
              | ',' :: rest4 => parseJObjFields fuel rest4 (jInsert acc key v) false
              | d :: rest4 =>
                if d = rbraceC then some (.obj (jInsert acc key v), rest4)
                else none
              | [] => none
          | _ => none
      else none

/-- The elements of a JSON array, after the opening bracket or a comma. -/
def parseJArrElems : Nat → List Char → List JVal → Bool →
    Option (JVal × List Char)
  | 0, _, _, _ => none
  | fuel + 1, cs, acc, isFirst =>
    match skipWsJ cs with
    | [] => none
    | c :: rest =>
      if c = ']' then
        if isFirst then some (.arr acc.reverse, rest) else none
      else
        match parseJVal fuel (c :: rest) with
        | none => none
        | some (v, rest1) =>
          match skipWsJ rest1 with
          | ',' :: rest2 => parseJArrElems fuel rest2 (v :: acc) false
          | ']' :: rest2 => some (.arr (v :: acc).reverse, rest2)
          | _ => none

/-- A JSON string body (after the opening quote), with the standard escape
sequences (`\uXXXX` outside the surrogate mechanism is mapped to its code
point; surrogate pairs are not combined — the payloads handled here are
ASCII). -/
def parseJStr : Nat → List Char → List Char → Option (String × List Char)
  | 0, _, _ => none
  | fuel + 1, cs, acc =>
    match cs with
    | [] => none
    | c :: rest =>
      if c = '"' then some (String.mk acc.reverse, rest)
      else if c = '\\' then
        match rest with
        | [] => none
        | e :: rest2 =>
          if e = '"' then parseJStr fuel rest2 ('"' :: acc)
          else if e = '\\' then parseJStr fuel rest2 ('\\' :: acc)
          else if e = '/' then parseJStr fuel rest2 ('/' :: acc)
          else if e = 'n' then parseJStr fuel rest2 ('\n' :: acc)
          else if e = 't' then parseJStr fuel rest2 ('\t' :: acc)
          else if e = 'r' then parseJStr fuel rest2 ('\r' :: acc)
          else if e = 'b' then parseJStr fuel rest2 (Char.ofNat 8 :: acc)
          else if e = 'f' then parseJStr fuel rest2 (Char.ofNat 12 :: acc)
          else if e = 'u' then
            match rest2 with
            | h1 :: h2 :: h3 :: h4 :: rest3 =>
              match hexValC h1, hexValC h2, hexValC h3, hexValC h4 with
              | some a, some b, some c3, some d =>
                parseJStr fuel rest3
                  (Char.ofNat (a * 4096 + b * 256 + c3 * 16 + d) :: acc)
              | _, _, _, _ => none
            | _ => none
          else none
      else if c.toNat < 32 then none
      else parseJStr fuel rest (c :: acc)

end

/-- `QJsonDocument::fromJson`: a strict JSON document whose top level is an
object or an array, with nothing but whitespace after it; `none` models a
parse error (a null document). -/
def qJsonDocFromJson (s : String) : Option JVal :=
  let cs := skipWsJ s.data
  match cs with
  | [] => none
  | c :: _ =>
    if c = lbraceC ∨ c = '[' then
      match parseJVal (cs.length + 2) cs with
      | some (v, rest) => if skipWsJ rest = [] then some v else none
      | none => none
    else none

/-- `QJsonDocument::fromJson(...).object()`: the fields of the parsed
top-level object, or the empty object on a parse error or a non-object
document. -/
def qJsonObjectOf (s : String) : JObj :=
  match qJsonDocFromJson s with
  | some (.obj o) => o
  | _ => []

example :
    qJsonObjectOf (bytesToStr (qFromBase64 ("eyJhZGQiOiJhLmNvbSJ9").data)) =
      [("add", .str "a.com")] := by decide
example :
    qJsonObjectOf
        (bytesToStr (qFromBase64
          ("eyJhZGQiOiJiLm9yZyIsInBzIjoidjEiLCJwb3J0Ijo0NDMsImlkIjoidWlkMSIsImFpZCI6IjIiLCJuZXQiOiJ4eCJ9").data)) =
      [("add", .str "b.org"), ("ps", .str "v1"), ("port", .num 443),
       ("id", .str "uid1"), ("aid", .str "2"), ("net", .str "xx")] := by decide

/-- `QString::mid(position, n)` with Qt's clamping: positions past the end
give the empty string, a negative `n` (the one-argument overload passes
`-1`) or an `n` past the end gives everything from `position`. -/
def qMid (s : String) (position len : Int) : String :=
  let n : Int := s.data.length
  if position > n then ""
  else if position < 0 then
    if len < 0 ∨ n ≤ len + position then s
    else if len + position ≤ 0 then ""
    else s.take (len + position).toNat
  else
    let rest := s.drop position.toNat
    if len < 0 ∨ len > n - position then rest
    else rest.take len.toNat

/-- `QString::mid(position)` (one-argument overload). -/
def qMid1 (s : String) (position : Int) : String :=
  qMid s position (-1)

/-- `QString::left(n)`: the whole string when `n` is negative or at least
the length. -/
def qLeft (s : String) (len : Int) : String :=
  if len < 0 ∨ len ≥ s.data.length then s else s.take len.toNat

/-- `QString::indexOf(QChar)`: first index, `-1` when absent. -/
def qIndexOfC (s : String) (c : Char) : Int :=
  match s.data.findIdx? (fun x => x = c) with
  | some i => (i : Int)
  | none => -1

/-- The `NETWORK_MAPPER` table of `AppProxy::getV2RayServerFromUrl`
(appproxy.cpp:863-866). -/
def NETWORK_MAPPER : List (String × String) :=
  [("tcp", "tcp"), ("kcp", "kcp"), ("ws", "ws"), ("h2", "http"),
   ("quic", "quic")]

/-- The decoded payload a `vmess://` link carries:
`QJsonDocument::fromJson(QByteArray::fromBase64(server.mid(8).toUtf8())).object()`
(appproxy.cpp:867-869). -/
def vmessRawPayload (server : String) : JObj :=
  qJsonObjectOf (bytesToStr (qFromBase64 (qMid1 server 8).data))

/-- The record-building part of `AppProxy::getV2RayServerFromUrl`
(appproxy.cpp:870-903), over the decoded payload: the user-facing record
with the documented defaults.  Note that `serverPort` and `alterId` are
stored as JSON numbers here (`rawServerConfig["port"].toInt()` reads the
raw `QJsonValue`). -/
def getV2RayServerFromUrlRaw (rawServerConfig : JObj)
    (subscriptionUrl : String) : JObj :=
  let network :=
    if jContains rawServerConfig "net" then jGetStr rawServerConfig "net"
    else "tcp"
  let serverAddr :=
    if jContains rawServerConfig "add" then jGetStr rawServerConfig "add"
    else ""
  [("autoConnect", .jbool false),
   ("serverName", .str (if jContains rawServerConfig "ps" then
       jGetStr rawServerConfig "ps"
     else serverAddr)),
   ("serverAddr", .str serverAddr),
   ("serverPort", .num (if jContains rawServerConfig "port" then
       jValToInt (jGetVal rawServerConfig "port")
     else 0)),
   ("subscription", .str subscriptionUrl),
   ("id", .str (if jContains rawServerConfig "id" then
       jGetStr rawServerConfig "id"
     else "")),
   ("alterId", .num (if jContains rawServerConfig "aid" then
       toIntDef (jGetStr rawServerConfig "aid")
     else 0)),
   ("mux", .num (-1)),
   ("security", .str "auto"),
   ("network", .str
     (match NETWORK_MAPPER.find? (fun p => p.1 = network) with
      | some p => p.2
      | none => "tcp")),
   ("networkHost", .str (if jContains rawServerConfig "host" then
       jGetStr rawServerConfig "host"
     else "")),
   ("networkPath", .str (if jContains rawServerConfig "path" then
       jGetStr rawServerConfig "path"
     else "")),
   ("tcpHeaderType", .str (if jContains rawServerConfig "type" then
       jGetStr rawServerConfig "type"
     else "")),
   ("networkSecurity", .str (if jContains rawServerConfig "tls" then "tls"
     else "none"))]

/-- `AppProxy::getV2RayServerFromUrl` (appproxy.cpp:859-903): strip the
`vmess://` prefix (8 characters), base64-decode and parse the JSON
payload, then build the user-facing record. -/
def getV2RayServerFromUrl (server subscriptionUrl : String) : JObj :=
  getV2RayServerFromUrlRaw (vmessRawPayload server) subscriptionUrl

theorem jGetVal_cons (k' : String) (v : JVal) (rest : JObj) (k : String) :
    jGetVal ((k', v) :: rest) k = if k' = k then some v else jGetVal rest k := by
  by_cases h : k' = k <;> simp [jGetVal, List.find?, h]

theorem urlRaw_getVal_network (raw : JObj) (url : String) :
    jGetVal (getV2RayServerFromUrlRaw raw url) "network" =
      some (.str (match NETWORK_MAPPER.find? (fun p => p.1 =
          (if jContains raw "net" then jGetStr raw "net" else "tcp")) with
        | some p => p.2
        | none => "tcp")) := by
  unfold getV2RayServerFromUrlRaw
  simp [jGetVal_cons]

theorem urlRaw_getVal_mux (raw : JObj) (url : String) :
    jGetVal (getV2RayServerFromUrlRaw raw url) "mux" = some (.num (-1)) := by
  unfold getV2RayServerFromUrlRaw
  simp [jGetVal_cons]

theorem urlRaw_getVal_security (raw : JObj) (url : String) :
    jGetVal (getV2RayServerFromUrlRaw raw url) "security" =
      some (.str "auto") := by
  unfold getV2RayServerFromUrlRaw
  simp [jGetVal_cons]

theorem urlRaw_getVal_alterId (raw : JObj) (url : String) :
    jGetVal (getV2RayServerFromUrlRaw raw url) "alterId" =
      some (.num (if jContains raw "aid" then toIntDef (jGetStr raw "aid")
        else 0)) := by
  unfold getV2RayServerFromUrlRaw
  simp [jGetVal_cons]

/-- C4: for every vmess:// share link, decoding applies the documented
defaults: a `net` value that is absent (or present but not among the
recognized transports tcp/kcp/ws/h2/quic after `toString`) yields network
"tcp"; an absent `aid` yields alterId 0; `mux` is always -1; `security` is
always "auto". -/
theorem claim_C4 (server url : String) :
    (jContains (vmessRawPayload server) "net" = false →
      jGetStr (getV2RayServerFromUrl server url) "network" = "tcp") ∧
    (∀ rawNet,
      jGetStr (vmessRawPayload server) "net" = rawNet →
      NETWORK_MAPPER.find? (fun p => p.1 = rawNet) = none →
      jGetStr (getV2RayServerFromUrl server url) "network" = "tcp") ∧
    (jContains (vmessRawPayload server) "aid" = false →
      jGetVal (getV2RayServerFromUrl server url) "alterId" = some (.num 0)) ∧
    jGetVal (getV2RayServerFromUrl server url) "mux" = some (.num (-1)) ∧
    jGetStr (getV2RayServerFromUrl server url) "security" = "auto" := by
  refine ⟨?_, ?_, ?_, ?_, ?_⟩
  · intro h
    rw [getV2RayServerFromUrl, jGetStr, urlRaw_getVal_network, h]
    simp [NETWORK_MAPPER]
  · intro rawNet hraw hfind
    rw [getV2RayServerFromUrl, jGetStr, urlRaw_getVal_network]
    by_cases hc : jContains (vmessRawPayload server) "net"
    · rw [if_pos hc, hraw, hfind]
    · rw [if_neg hc]
      simp [NETWORK_MAPPER]
  · intro h
    rw [getV2RayServerFromUrl, urlRaw_getVal_alterId, h]
    simp
  · rw [getV2RayServerFromUrl, urlRaw_getVal_mux]
  · rw [getV2RayServerFromUrl, jGetStr, urlRaw_getVal_security]

/-- A vmess:// link whose payload is the base64 of a JSON object holding
only an `add` field (no `net`, no `aid`). -/
def vmessLinkNoNet : String := "vmess://eyJhZGQiOiJhLmNvbSJ9"

/-- A vmess:// link whose payload holds the unrecognized `net` value
"xx". -/
def vmessLinkNetXX : String :=
  "vmess://eyJhZGQiOiJiLm9yZyIsInBzIjoidjEiLCJwb3J0Ijo0NDMsImlkIjoidWlkMSIsImFpZCI6IjIiLCJuZXQiOiJ4eCJ9"

/-- Witness for C4 at concrete links: an absent `net` and an unrecognized
`net` both decode to network "tcp", and an absent `aid` decodes to
alterId 0. -/
theorem claim_C4_witness :
    jGetStr (getV2RayServerFromUrl vmessLinkNoNet "u") "network" = "tcp" ∧
    jGetStr (getV2RayServerFromUrl vmessLinkNetXX "u") "network" = "tcp" ∧
    jGetVal (getV2RayServerFromUrl vmessLinkNoNet "u") "alterId" =
      some (.num 0) :=
  ⟨(claim_C4 vmessLinkNoNet "u").1 (by decide),
   (claim_C4 vmessLinkNetXX "u").2.1 "xx" (by decide) (by decide),
   (claim_C4 vmessLinkNoNet "u").2.2.1 (by decide)⟩

/-- Auxiliary loop of `qFromPercentEncoding`; invalid percent sequences
are kept verbatim. -/
def percentDecodeAux : Nat → List Char → List Char
  | 0, _ => []
  | _ + 1, [] => []
  | fuel + 1, c :: rest =>
    if c = '%' then
      match rest with
      | h1 :: h2 :: rest2 =>
        match hexValC h1, hexValC h2 with
        | some a, some b =>
          Char.ofNat (a * 16 + b) :: percentDecodeAux fuel rest2
        | _, _ => c :: percentDecodeAux fuel rest
      | _ => c :: percentDecodeAux fuel rest
    else c :: percentDecodeAux fuel rest

/-- `QUrl::fromPercentEncoding` (decoded bytes viewed as Latin-1;
multi-byte UTF-8 is not recombined — the data handled here is ASCII). -/
def qFromPercentEncoding (s : String) : String :=
  String.mk (percentDecodeAux s.data.length s.data)

/-- `QUrlQuery(...).queryItems()`: split the query string on `'&'`; each
component's key is the part before the first `'='` and its value the part
after it (empty when there is none); empty components are skipped.  The
PrettyDecoded percent-decoding of this layer is not applied here; the
caller passes the value through `QUrl::fromPercentEncoding` itself, which
yields the same final result for the once-encoded plugin strings handled
here. -/
def queryItemsM (q : String) : List (String × String) :=
  (qSplitC q '&').filterMap (fun part =>
    if part = "" then none
    else
      match qSplitC part '=' with
      | [] => none
      | [k] => some (k, "")
      | k :: vs => some (k, String.intercalate "=" vs))

/-- The record assembly at the end of
`AppProxy::getShadowsocksServerFromUrl` (appproxy.cpp:928-952): the
seven-field record, with the `obfs` object appended when any obfuscation
options were decoded. -/
def ssAssemble (serverName serverAddr : String) (serverPort : Int)
    (encryption password subscriptionUrl : String) (obfsOptions : JObj) :
    JObj :=
  let serverConfig : JObj :=
    [("serverName", .str serverName), ("autoConnect", .jbool false),
     ("subscription", .str subscriptionUrl), ("serverAddr", .str serverAddr),
     ("serverPort", .num serverPort), ("encryption", .str encryption),
     ("password", .str password)]
  if 0 < obfsOptions.length then serverConfig ++ [("obfs", .obj obfsOptions)]
  else serverConfig

/-- `AppProxy::getShadowsocksServerFromUrl` (appproxy.cpp:905-953):
`ss://base64(method:password)@host:port[/][?plugin=...][#name]`.  All the
index arithmetic (including the `-1` results of `indexOf` when a separator
is absent) goes through the Qt `mid`/`left` semantics. -/
def getShadowsocksServerFromUrl (serverUrl0 subscriptionUrl : String) : JObj :=
  let serverUrl := qMid1 serverUrl0 5
  let atIndex := qIndexOfC serverUrl '@'
  let colonIndex := qIndexOfC serverUrl ':'
  let splashIndex := qIndexOfC serverUrl '/'
  let sharpIndex := qIndexOfC serverUrl '#'
  let questionMarkIndex := qIndexOfC serverUrl '?'
  let confidential := bytesToStr (qFromBase64 (qLeft serverUrl atIndex).data)
  let serverAddr := qMid serverUrl (atIndex + 1) (colonIndex - atIndex - 1)
  let serverPort :=
    toIntDef (qMid serverUrl (colonIndex + 1) (splashIndex - colonIndex - 1))
  let options :=
    qMid serverUrl (questionMarkIndex + 1) (sharpIndex - questionMarkIndex - 1)
  let serverName := qFromPercentEncoding (qMid1 serverUrl (sharpIndex + 1))
  let colonIndex2 := qIndexOfC confidential ':'
  let encryption := qLeft confidential colonIndex2
  let password := qMid1 confidential (colonIndex2 + 1)
  let obfsOptions : JObj := (queryItemsM options).foldl (fun acc p =>
    if p.1 = "plugin" then
      (qSplitC (qFromPercentEncoding p.2) ';').foldl (fun acc2 o =>
        match qSplitC o '=' with
        | [k, v] => jInsert acc2 k (.str v)
        | _ => acc2) acc
    else acc) []
  ssAssemble serverName serverAddr serverPort encryption password
    subscriptionUrl obfsOptions

/-- An obfuscated ss:// link (plugin query with obfs options). -/
def c5ObfsLine : String :=
  "ss://YWVzLTI1Ni1nY206cGFzcw==@1.2.3.4:443/?plugin=obfs-local%3Bobfs%3Dhttp#n1"

/-- A plain (non-obfuscated) ss:// link. -/
def c5SsPlainLine : String := "ss://YWVzLTI1Ni1nY206cGFzcw==@5.6.7.8:8388#n2"

example : jContains (getShadowsocksServerFromUrl c5ObfsLine "u") "obfs" = true := by
  decide
example :
    jContains (getShadowsocksServerFromUrl c5SsPlainLine "u") "obfs" = false := by
  decide
example :
    jGetStr (getShadowsocksServerFromUrl c5SsPlainLine "u") "encryption" =
      "aes-256-gcm" := by decide
example :
    jGetStr (getShadowsocksServerFromUrl c5SsPlainLine "u") "serverAddr" =
      "5.6.7.8" := by decide

/-- The profile name under which a stored pretty config is keyed
(`serverConfig["serverName"].toString()`; both pretty configs always carry
the key). -/
def StoredServer.nameOf : StoredServer → String
  | .vmess c => c.serverName
  | .shadowsocks c => c.serverName

/-- The stored `subscription` field. -/
def StoredServer.subscriptionOf : StoredServer → String
  | .vmess c => c.subscription
  | .shadowsocks c => c.subscription

/-- The stored `autoConnect` field. -/
def StoredServer.autoConnectOf : StoredServer → Bool
  | .vmess c => c.autoConnect
  | .shadowsocks c => c.autoConnect

/-- `serverConfig["autoConnect"] = b` on a stored pretty config. -/
def StoredServer.withAutoConnect : StoredServer → Bool → StoredServer
  | .vmess c, b => .vmess { c with autoConnect := b }
  | .shadowsocks c, b => .shadowsocks { c with autoConnect := b }

/-- Modelled from the spec: `Configurator::removeSubscriptionServers`
(the Configurator class is not among the given sources).  Per §4.4 of the
spec it looks up and removes all currently-stored profiles whose
subscription source equals the url, "retaining each removed profile's
autoConnect flag keyed by name"; the code receives them as a
`QMap<QString, QJsonObject>`, so for duplicate names the later profile
wins.  This is the returned map. -/
def removedSubscriptionMap (store : List StoredServer) (url : String) :
    List (String × StoredServer) :=
  (store.filter (fun s => s.subscriptionOf = url)).foldl
    (fun m s => qmapInsertQ m s.nameOf s) []

/-- Modelled from the spec: the stored profiles that survive
`Configurator::removeSubscriptionServers` — those whose subscription
source differs from the url. -/
def removeSubscriptionStore (store : List StoredServer) (url : String) :
    List StoredServer :=
  store.filter (fun s => ¬ s.subscriptionOf = url)

/-- One line of the loop body of `AppProxy::addSubscriptionServers`
(appproxy.cpp:829-843) before the autoConnect recovery: an obfuscated
ss:// record or an unrecognized scheme is skipped (`continue`), otherwise
the decoded record is prettified. -/
def decodeSubscriptionLine (url : String) (rand : Nat → Nat)
    (server : String) : Option StoredServer :=
  if startsWithQ server "ss://" then
    if jContains (getShadowsocksServerFromUrl server url) "obfs" then none
    else
      some (.shadowsocks
        (getPrettyShadowsocksConfig (getShadowsocksServerFromUrl server url)))
  else if startsWithQ server "vmess://" then
    some (.vmess (getPrettyV2RayConfig rand (getV2RayServerFromUrl server url)))
  else none

/-- One line of the loop of `AppProxy::addSubscriptionServers`
(appproxy.cpp:829-855) including the autoConnect recovery from the removed
map: the profile that `configurator.addServer` persists for this line, or
`none` when the line is skipped. -/
def subsLine (url : String) (removed : List (String × StoredServer))
    (rand : Nat → Nat) (server : String) : Option StoredServer :=
  match decodeSubscriptionLine url rand server with
  | none => none
  | some sc =>
    some (sc.withAutoConnect
      (match lookupQ removed sc.nameOf with
       | some prev => prev.autoConnectOf
       | none => false))

/-- The profiles persisted by the whole loop, in line order; the line at
index `k` draws its random user agents from the stream `randAt k`. -/
def subsLines (url : String) (removed : List (String × StoredServer))
    (randAt : Nat → Nat → Nat) : List String → List StoredServer
  | [] => []
  | l :: ls =>
    match subsLine url removed (randAt 0) l with
    | some s => s :: subsLines url removed (fun i => randAt (i + 1)) ls
    | none => subsLines url removed (fun i => randAt (i + 1)) ls

/-- The outcome of `AppProxy::addSubscriptionServers`: the stored profile
list afterwards, and whether the fetch-failure error was reported. -/
structure SubsImportResult where
  store : List StoredServer
  fetchError : Bool
deriving Repr

/-- `AppProxy::addSubscriptionServers` (appproxy.cpp:817-857): an empty
bundle reports a fetch error and changes nothing; otherwise the profiles
of this subscription are removed (their autoConnect flags retained by
name), the bundle is split on newlines, and each line is decoded and
persisted or skipped.  The store itself (`configurator.addServer`,
`removeSubscriptionServers`) is modelled from the spec as a list. -/
def addSubscriptionServersM (store : List StoredServer)
    (subsriptionServers subsriptionUrl : String)
    (randAt : Nat → Nat → Nat) : SubsImportResult :=
  if subsriptionServers.data.length = 0 then
    { store := store, fetchError := true }
  else
    { store := removeSubscriptionStore store subsriptionUrl
        ++ subsLines subsriptionUrl (removedSubscriptionMap store subsriptionUrl)
            randAt (qSplitC subsriptionServers '\n'),
      fetchError := false }

theorem subsLines_append (url : String) (removed : List (String × StoredServer))
    (randAt : Nat → Nat → Nat) (l1 l2 : List String) :
    subsLines url removed randAt (l1 ++ l2) =
      subsLines url removed randAt l1 ++
        subsLines url removed (fun i => randAt (i + l1.length)) l2 := by
  induction l1 generalizing randAt with
  | nil => rfl
  | cons a l1 ih =>
    show subsLines url removed randAt (a :: (l1 ++ l2)) = _
    simp only [subsLines]
    cases h : subsLine url removed (randAt 0) a with
    | some s => simp only [h, ih, List.cons_append, List.length_cons, Nat.add_assoc]
    | none => simp only [h, ih, List.length_cons, Nat.add_assoc]

theorem subsLines_cons (url : String) (removed : List (String × StoredServer))
    (randAt : Nat → Nat → Nat) (l : String) (ls : List String) :
    subsLines url removed randAt (l :: ls) =
      (subsLine url removed (randAt 0) l).toList
        ++ subsLines url removed (fun i => randAt (i + 1)) ls := by
  simp only [subsLines]
  cases h : subsLine url removed (randAt 0) l <;> simp [h]

/-- C5: in a subscription import of a non-empty bundle, each line is
handled independently: the imported profile list is the concatenation of
the per-line results around any chosen line (so a skipped line never
aborts the batch and never affects its neighbours), and a line contributes
nothing exactly when it is an obfuscated ss:// link (its decoded record
carries an `obfs` entry) or carries an unrecognized scheme; every other
line — any vmess:// line and any non-obfuscated ss:// line — is decoded
and persisted with its recovered autoConnect flag. -/
theorem claim_C5 (store : List StoredServer) (url : String)
    (randAt : Nat → Nat → Nat) (bundle : String) (pre post : List String)
    (l : String) (hsplit : qSplitC bundle '\n' = pre ++ l :: post)
    (hne : bundle ≠ "") :
    (addSubscriptionServersM store bundle url randAt).fetchError = false ∧
    (addSubscriptionServersM store bundle url randAt).store =
      removeSubscriptionStore store url
        ++ subsLines url (removedSubscriptionMap store url) randAt pre
        ++ (subsLine url (removedSubscriptionMap store url)
              (randAt pre.length) l).toList
        ++ subsLines url (removedSubscriptionMap store url)
            (fun i => randAt (i + (pre.length + 1))) post ∧
    ((subsLine url (removedSubscriptionMap store url) (randAt pre.length) l)
        = none ↔
      ((startsWithQ l "ss://" = true ∧
          jContains (getShadowsocksServerFromUrl l url) "obfs" = true) ∨
        (startsWithQ l "ss://" = false ∧ startsWithQ l "vmess://" = false))) := by
  have hlen : ¬ bundle.data.length = 0 := by
    intro h0
    exact hne (String.ext (List.length_eq_zero.mp h0))
  refine ⟨?_, ?_, ?_⟩
  · simp only [addSubscriptionServersM]
    rw [if_neg hlen]
  · simp only [addSubscriptionServersM]
    rw [if_neg hlen]
    show removeSubscriptionStore store url ++ _ = _
    rw [hsplit, subsLines_append, subsLines_cons]
    have hsh : (fun i => randAt (i + 1 + pre.length)) =
        (fun i => randAt (i + (pre.length + 1))) := by
      funext i
      rw [Nat.add_assoc, Nat.add_comm 1 pre.length]
    rw [Nat.zero_add, hsh, List.append_assoc, List.append_assoc]
  · unfold subsLine decodeSubscriptionLine
    cases hss : startsWithQ l "ss://" with
    | true =>
      simp only [hss, if_true]
      cases hob : jContains (getShadowsocksServerFromUrl l url) "obfs" with
      | true => simp [hob]
      | false => simp [hob]
    | false =>
      cases hvm : startsWithQ l "vmess://" with
      | true => simp [hss, hvm]
      | false => simp [hss, hvm]

/-- A four-line bundle: an unrecognized-scheme line, an obfuscated ss://
link, a vmess:// link, and a plain ss:// link. -/
def c5Bundle : String :=
  "bad-line\nss://YWVzLTI1Ni1nY206cGFzcw==@1.2.3.4:443/?plugin=obfs-local%3Bobfs%3Dhttp#n1\nvmess://eyJhZGQiOiJhLmNvbSJ9\nss://YWVzLTI1Ni1nY206cGFzcw==@5.6.7.8:8388#n2"

/-- A vmess line of the bundle (same payload as `vmessLinkNoNet`). -/
def c5VmessLine : String := "vmess://eyJhZGQiOiJhLmNvbSJ9"

/-- Witness for C5 at the concrete bundle: the batch is not aborted, and
the obfuscated ss:// line in the middle contributes no server. -/
theorem claim_C5_witness :
    (addSubscriptionServersM [] c5Bundle "https://sub.example.com"
      (fun _ _ => 0)).fetchError = false ∧
    subsLine "https://sub.example.com"
      (removedSubscriptionMap [] "https://sub.example.com") (fun _ => 0)
      c5ObfsLine = none := by
  have A := claim_C5 [] "https://sub.example.com" (fun _ _ => 0) c5Bundle
    ["bad-line"] [c5VmessLine, c5SsPlainLine] c5ObfsLine (by decide) (by decide)
  exact ⟨A.1, A.2.2.mpr (Or.inl ⟨by decide, by decide⟩)⟩

/-- A manual pass over the stored profiles that rewrites each profile's
`autoConnect` flag as a function of its name and current flag (the
"flags manually set between imports" of the idempotence property). -/
def applyFlags (f : String → Bool → Bool) (store : List StoredServer) :
    List StoredServer :=
  store.map (fun s => s.withAutoConnect (f s.nameOf s.autoConnectOf))

/-- The autoConnect flag recovered from the removed-profiles map
(appproxy.cpp:848-851). -/
def recoveredFlag (removed : List (String × StoredServer)) (n : String) : Bool :=
  match lookupQ removed n with
  | some prev => prev.autoConnectOf
  | none => false

/-- Blank the randomized User-Agent pool of a stream-settings block (the
only build-to-build varying data in a stored profile). -/
def eraseUAStream (ss : StreamSettings) : StreamSettings :=
  { ss with settings :=
    match ss.settings with
    | .tcp t =>
      .tcp { t with request := t.request.map (fun r => { r with userAgent := [] }) }
    | other => other }

/-- Blank the randomized User-Agent pool of a stored profile. -/
def eraseUAServer : StoredServer → StoredServer
  | .vmess c => .vmess { c with streamSettings := eraseUAStream c.streamSettings }
  | .shadowsocks c => .shadowsocks c

theorem nameOf_withAC (s : StoredServer) (b : Bool) :
    (s.withAutoConnect b).nameOf = s.nameOf := by
  cases s <;> rfl

theorem sub_withAC (s : StoredServer) (b : Bool) :
    (s.withAutoConnect b).subscriptionOf = s.subscriptionOf := by
  cases s <;> rfl

theorem ac_withAC (s : StoredServer) (b : Bool) :
    (s.withAutoConnect b).autoConnectOf = b := by
  cases s <;> rfl

theorem withAC_withAC (s : StoredServer) (a b : Bool) :
    (s.withAutoConnect a).withAutoConnect b = s.withAutoConnect b := by
  cases s <;> rfl

theorem eraseUA_withAC (s : StoredServer) (b : Bool) :
    eraseUAServer (s.withAutoConnect b) = (eraseUAServer s).withAutoConnect b := by
  cases s <;> rfl

theorem nameOf_erase (s : StoredServer) : (eraseUAServer s).nameOf = s.nameOf := by
  cases s <;> rfl

theorem sub_erase (s : StoredServer) :
    (eraseUAServer s).subscriptionOf = s.subscriptionOf := by
  cases s <;> rfl

theorem ac_erase (s : StoredServer) :
    (eraseUAServer s).autoConnectOf = s.autoConnectOf := by
  cases s <;> rfl

theorem eraseStream_rand (r r' : Nat → Nat) (cfg : JObj) :
    eraseUAStream (getV2RayStreamSettingsConfig r cfg) =
      eraseUAStream (getV2RayStreamSettingsConfig r' cfg) := by
  unfold getV2RayStreamSettingsConfig eraseUAStream
  simp only
  split_ifs <;> simp

theorem erase_vmess_rand (r r' : Nat → Nat) (cfg : JObj) :
    eraseUAServer (.vmess (getPrettyV2RayConfig r cfg)) =
      eraseUAServer (.vmess (getPrettyV2RayConfig r' cfg)) := by
  have h := eraseStream_rand r r' cfg
  unfold eraseUAServer getPrettyV2RayConfig
  simp [h]

theorem decode_erase (url : String) (r r' : Nat → Nat) (l : String) :
    (decodeSubscriptionLine url r l).map eraseUAServer =
      (decodeSubscriptionLine url r' l).map eraseUAServer := by
  unfold decodeSubscriptionLine
  by_cases h1 : startsWithQ l "ss://" = true
  · rw [if_pos h1, if_pos h1]
  · rw [if_neg h1, if_neg h1]
    by_cases h2 : startsWithQ l "vmess://" = true
    · rw [if_pos h2, if_pos h2]
      show some _ = some _
      exact congrArg some (erase_vmess_rand r r' (getV2RayServerFromUrl l url))
    · rw [if_neg h2, if_neg h2]

theorem ssAssemble_subscription (sn sa : String) (sp : Int)
    (enc pw url : String) (obfs : JObj) :
    jContains (ssAssemble sn sa sp enc pw url obfs) "subscription" = true ∧
    jGetStr (ssAssemble sn sa sp enc pw url obfs) "subscription" = url := by
  constructor <;>
  · unfold ssAssemble
    split_ifs <;> simp [jContains, jGetStr, jGetVal, List.find?]

theorem ssUrl_subscription (l url : String) :
    jContains (getShadowsocksServerFromUrl l url) "subscription" = true ∧
    jGetStr (getShadowsocksServerFromUrl l url) "subscription" = url := by
  unfold getShadowsocksServerFromUrl
  exact ssAssemble_subscription _ _ _ _ _ _ _

theorem urlRaw_subscription (raw : JObj) (url : String) :
    jContains (getV2RayServerFromUrlRaw raw url) "subscription" = true ∧
    jGetStr (getV2RayServerFromUrlRaw raw url) "subscription" = url := by
  constructor
  · unfold getV2RayServerFromUrlRaw
    simp [jContains]
  · unfold getV2RayServerFromUrlRaw
    simp [jGetStr, jGetVal_cons]

theorem subOf_ss (c : SsConfig) :
    (StoredServer.shadowsocks c).subscriptionOf = c.subscription := rfl

theorem subOf_vmess (c : VmessConfig) :
    (StoredServer.vmess c).subscriptionOf = c.subscription := rfl

theorem pretty_ss_subscription (sc : JObj) :
    (getPrettyShadowsocksConfig sc).subscription =
      if jContains sc "subscription" = true then jGetStr sc "subscription"
      else "" := rfl

theorem pretty_v2ray_subscription (r : Nat → Nat) (cfg : JObj) :
    (getPrettyV2RayConfig r cfg).subscription =
      if jContains cfg "subscription" = true then jGetStr cfg "subscription"
      else "" := rfl

theorem decode_sub (url : String) (r : Nat → Nat) (l : String)
    (c : StoredServer) (h : decodeSubscriptionLine url r l = some c) :
    c.subscriptionOf = url := by
  unfold decodeSubscriptionLine at h
  by_cases h1 : startsWithQ l "ss://" = true
  · rw [if_pos h1] at h
    by_cases hob : jContains (getShadowsocksServerFromUrl l url) "obfs" = true
    · rw [if_pos hob] at h
      cases h
    · rw [if_neg hob] at h
      cases h
      rw [subOf_ss, pretty_ss_subscription,
        if_pos (ssUrl_subscription l url).1, (ssUrl_subscription l url).2]
  · rw [if_neg h1] at h
    by_cases h2 : startsWithQ l "vmess://" = true
    · rw [if_pos h2] at h
      cases h
      rw [subOf_vmess, pretty_v2ray_subscription, getV2RayServerFromUrl,
        if_pos (urlRaw_subscription (vmessRawPayload l) url).1,
        (urlRaw_subscription (vmessRawPayload l) url).2]
    · rw [if_neg h2] at h
      cases h

theorem subsLine_eq (url : String) (removed : List (String × StoredServer))
    (r : Nat → Nat) (l : String) :
    subsLine url removed r l =
      (decodeSubscriptionLine url r l).map
        (fun sc => sc.withAutoConnect (recoveredFlag removed sc.nameOf)) := by
  unfold subsLine recoveredFlag
  cases decodeSubscriptionLine url r l <;> rfl

/-- The canonical (irrelevant) random stream used to state rand-independent
facts about decoded lines. -/
def zeroRand : Nat → Nat := fun _ => 0

theorem subsLine_flag (url : String) (removed : List (String × StoredServer))
    (r : Nat → Nat) (l : String) (s : StoredServer)
    (h : subsLine url removed r l = some s) :
    s.autoConnectOf = recoveredFlag removed s.nameOf := by
  rw [subsLine_eq] at h
  cases hd : decodeSubscriptionLine url r l with
  | none => rw [hd] at h; cases h
  | some sc =>
    rw [hd] at h
    cases h
    rw [ac_withAC, nameOf_withAC]

theorem mem_subsLines (url : String) (removed : List (String × StoredServer))
    (ls : List String) :
    ∀ randAt s, s ∈ subsLines url removed randAt ls →
      ∃ l ∈ ls, ∃ r, subsLine url removed r l = some s := by
  induction ls with
  | nil =>
    intro randAt s h
    simp [subsLines] at h
  | cons a ls ih =>
    intro randAt s h
    rw [subsLines_cons] at h
    rcases List.mem_append.mp h with h1 | h2
    · cases hd : subsLine url removed (randAt 0) a with
      | none => rw [hd] at h1; cases h1
      | some t =>
        rw [hd] at h1
        have hst : s = t := by simpa using h1
        exact ⟨a, by simp, randAt 0, by rw [hd, hst]⟩
    · rcases ih _ s h2 with ⟨l, hl, r, hr⟩
      exact ⟨l, by simp [hl], r, hr⟩

theorem subsLines_name_exists (url : String)
    (removed : List (String × StoredServer)) (ls : List String) :
    ∀ randAt l, l ∈ ls → ∀ c, decodeSubscriptionLine url zeroRand l = some c →
      ∃ s ∈ subsLines url removed randAt ls, s.nameOf = c.nameOf := by
  induction ls with
  | nil => intro randAt l hl; cases hl
  | cons a ls ih =>
    intro randAt l hl c hdec
    rcases List.mem_cons.mp hl with rfl | hl'
    · have hmap := decode_erase url zeroRand (randAt 0) l
      rw [hdec] at hmap
      cases hd : decodeSubscriptionLine url (randAt 0) l with
      | none => rw [hd] at hmap; cases hmap
      | some cHead =>
        rw [hd] at hmap
        have hee : eraseUAServer c = eraseUAServer cHead := by
          simpa using hmap
        have hname : cHead.nameOf = c.nameOf := by
          rw [← nameOf_erase cHead, ← hee, nameOf_erase]
        refine ⟨cHead.withAutoConnect (recoveredFlag removed cHead.nameOf), ?_, ?_⟩
        · rw [subsLines_cons]
          refine List.mem_append.mpr (Or.inl ?_)
          rw [subsLine_eq, hd]
          simp
        · rw [nameOf_withAC, hname]
    · rcases ih (fun i => randAt (i + 1)) l hl' c hdec with ⟨s, hs, hn⟩
      refine ⟨s, ?_, hn⟩
      rw [subsLines_cons]
      exact List.mem_append.mpr (Or.inr hs)

theorem lookup_fold_insert (L : List StoredServer) (n : String) :
    ∀ m : List (String × StoredServer),
    (lookupQ (L.foldl (fun m s => qmapInsertQ m s.nameOf s) m) n = lookupQ m n
        ∧ ∀ s ∈ L, s.nameOf ≠ n)
    ∨ (∃ c ∈ L, c.nameOf = n ∧
        lookupQ (L.foldl (fun m s => qmapInsertQ m s.nameOf s) m) n = some c) := by
  induction L with
  | nil =>
    intro m
    left
    exact ⟨rfl, by simp⟩
  | cons s L ih =>
    intro m
    rcases ih (qmapInsertQ m s.nameOf s) with ⟨heq, hall⟩ | ⟨c, hc, hcn, heq⟩
    · by_cases hs : s.nameOf = n
      · right
        refine ⟨s, by simp, hs, ?_⟩
        show lookupQ (L.foldl _ (qmapInsertQ m s.nameOf s)) n = some s
        rw [heq, lookup_insertQ, if_pos hs]
      · left
        constructor
        · show lookupQ (L.foldl _ (qmapInsertQ m s.nameOf s)) n = lookupQ m n
          rw [heq, lookup_insertQ, if_neg hs]
        · intro t ht
          rcases List.mem_cons.mp ht with rfl | ht'
          · exact hs
          · exact hall t ht'
    · right
      exact ⟨c, List.mem_cons_of_mem _ hc, hcn, heq⟩

theorem subsLines_erase_eq (url : String)
    (R1 R2 : List (String × StoredServer)) (f : String → Bool → Bool)
    (ls : List String) :
    ∀ r1 r2 : Nat → Nat → Nat,
    (∀ l ∈ ls, ∀ c, decodeSubscriptionLine url zeroRand l = some c →
      recoveredFlag R2 c.nameOf = f c.nameOf (recoveredFlag R1 c.nameOf)) →
    (subsLines url R2 r2 ls).map eraseUAServer =
      ((subsLines url R1 r1 ls).map
        (fun s => s.withAutoConnect (f s.nameOf s.autoConnectOf))).map
        eraseUAServer := by
  induction ls with
  | nil => intro r1 r2 _; rfl
  | cons a ls ih =>
    intro r1 r2 hR2
    rw [subsLines_cons, subsLines_cons, List.map_append, List.map_append,
      List.map_append]
    congr 1
    · cases hd : decodeSubscriptionLine url zeroRand a with
      | none =>
        have h2 : decodeSubscriptionLine url (r2 0) a = none := by
          have hm := decode_erase url (r2 0) zeroRand a
          rw [hd] at hm
          cases hx : decodeSubscriptionLine url (r2 0) a with
          | none => rfl
          | some t => rw [hx] at hm; cases hm
        have h1 : decodeSubscriptionLine url (r1 0) a = none := by
          have hm := decode_erase url (r1 0) zeroRand a
          rw [hd] at hm
          cases hx : decodeSubscriptionLine url (r1 0) a with
          | none => rfl
          | some t => rw [hx] at hm; cases hm
        simp [subsLine_eq, h1, h2]
      | some c =>
        have hflag := hR2 a (List.mem_cons_self a ls) c hd
        have hm2 := decode_erase url (r2 0) zeroRand a
        rw [hd] at hm2
        have hm1 := decode_erase url (r1 0) zeroRand a
        rw [hd] at hm1
        obtain ⟨c2, hd2, he2⟩ : ∃ c2,
            decodeSubscriptionLine url (r2 0) a = some c2 ∧
              eraseUAServer c2 = eraseUAServer c := by
          cases hx : decodeSubscriptionLine url (r2 0) a with
          | none => rw [hx] at hm2; cases hm2
          | some t =>
            rw [hx] at hm2
            exact ⟨t, rfl, by simpa using hm2⟩
        obtain ⟨c1, hd1, he1⟩ : ∃ c1,
            decodeSubscriptionLine url (r1 0) a = some c1 ∧
              eraseUAServer c1 = eraseUAServer c := by
          cases hx : decodeSubscriptionLine url (r1 0) a with
          | none => rw [hx] at hm1; cases hm1
          | some t =>
            rw [hx] at hm1
            exact ⟨t, rfl, by simpa using hm1⟩
        have hn2 : c2.nameOf = c.nameOf := by
          rw [← nameOf_erase c2, he2, nameOf_erase]
        have hn1 : c1.nameOf = c.nameOf := by
          rw [← nameOf_erase c1, he1, nameOf_erase]
        rw [subsLine_eq url R2 (r2 0) a, subsLine_eq url R1 (r1 0) a, hd2, hd1]
        simp only [Option.map_some', Option.toList_some, List.map_cons,
          List.map_nil]
        rw [nameOf_withAC, ac_withAC, withAC_withAC, eraseUA_withAC,
          eraseUA_withAC, he2, he1, hn2, hn1, hflag]
    · exact ih (fun i => r1 (i + 1)) (fun i => r2 (i + 1))
        (fun l hl c hc => hR2 l (List.mem_cons_of_mem a hl) c hc)

/-- C6 (amended): re-importing the same subscription bundle is the
identity on the stored profile set up to the randomized User-Agent pool
embedded in tcp/http-camouflage stream settings: for any two random
streams (the two imports draw different `std::rand()` values) and any
manual rewriting `f` of autoConnect flags between the imports, the
second import reproduces exactly the flag-adjusted store — same names, same
fields including every manually set autoConnect flag — after blanking the
User-Agent pools on both sides. -/
theorem claim_C6 (store : List StoredServer) (url bundle : String)
    (r1 r2 : Nat → Nat → Nat) (f : String → Bool → Bool) :
    ((addSubscriptionServersM
        (applyFlags f (addSubscriptionServersM store bundle url r1).store)
        bundle url r2).store).map eraseUAServer =
      (applyFlags f (addSubscriptionServersM store bundle url r1).store).map
        eraseUAServer := by
  by_cases hb : bundle.data.length = 0
  · simp only [addSubscriptionServersM]
    rw [if_pos hb, if_pos hb]
  · have himp1 : (addSubscriptionServersM store bundle url r1).store =
        removeSubscriptionStore store url
          ++ subsLines url (removedSubscriptionMap store url) r1
              (qSplitC bundle '\n') := by
      simp only [addSubscriptionServersM]
      rw [if_neg hb]
    rw [himp1]
    have hsplitF : applyFlags f
        (removeSubscriptionStore store url
          ++ subsLines url (removedSubscriptionMap store url) r1
              (qSplitC bundle '\n')) =
        applyFlags f (removeSubscriptionStore store url)
          ++ applyFlags f (subsLines url (removedSubscriptionMap store url) r1
              (qSplitC bundle '\n')) := List.map_append _ _ _
    rw [hsplitF]
    have hKsub : ∀ s ∈ applyFlags f (removeSubscriptionStore store url),
        ¬ s.subscriptionOf = url := by
      intro s hs
      rcases List.mem_map.mp hs with ⟨t, ht, rfl⟩
      rw [sub_withAC]
      have := (List.mem_filter.mp ht).2
      simpa using this
    have hA1sub : ∀ s ∈ applyFlags f
        (subsLines url (removedSubscriptionMap store url) r1
          (qSplitC bundle '\n')), s.subscriptionOf = url := by
      intro s hs
      rcases List.mem_map.mp hs with ⟨t, ht, rfl⟩
      rw [sub_withAC]
      rcases mem_subsLines url (removedSubscriptionMap store url)
          (qSplitC bundle '\n') r1 t ht with ⟨l, hl, r, hr⟩
      rw [subsLine_eq] at hr
      cases hdec : decodeSubscriptionLine url r l with
      | none => rw [hdec] at hr; cases hr
      | some sc =>
        rw [hdec] at hr
        cases hr
        rw [sub_withAC]
        exact decode_sub url r l sc hdec
    have hKeep2 : removeSubscriptionStore
        (applyFlags f (removeSubscriptionStore store url)
          ++ applyFlags f (subsLines url (removedSubscriptionMap store url) r1
              (qSplitC bundle '\n'))) url =
        applyFlags f (removeSubscriptionStore store url) := by
      rw [removeSubscriptionStore, List.filter_append]
      have h1 : (applyFlags f (removeSubscriptionStore store url)).filter
          (fun s => ¬ s.subscriptionOf = url) =
          applyFlags f (removeSubscriptionStore store url) := by
        rw [List.filter_eq_self]
        intro a ha
        exact decide_eq_true (hKsub a ha)
      have h2 : (applyFlags f (subsLines url (removedSubscriptionMap store url)
          r1 (qSplitC bundle '\n'))).filter
          (fun s => ¬ s.subscriptionOf = url) = [] := by
        rw [List.filter_eq_nil_iff]
        intro a ha hd
        exact (of_decide_eq_true hd) (hA1sub a ha)
      rw [h1, h2, List.append_nil]
    have hFilt2 : (applyFlags f (removeSubscriptionStore store url)
          ++ applyFlags f (subsLines url (removedSubscriptionMap store url) r1
              (qSplitC bundle '\n'))).filter
        (fun s => s.subscriptionOf = url) =
        applyFlags f (subsLines url (removedSubscriptionMap store url) r1
          (qSplitC bundle '\n')) := by
      rw [List.filter_append]
      have h1 : (applyFlags f (removeSubscriptionStore store url)).filter
          (fun s => s.subscriptionOf = url) = [] := by
        rw [List.filter_eq_nil_iff]
        intro a ha hd
        exact hKsub a ha (of_decide_eq_true hd)
      have h2 : (applyFlags f (subsLines url (removedSubscriptionMap store url)
          r1 (qSplitC bundle '\n'))).filter
          (fun s => s.subscriptionOf = url) =
          applyFlags f (subsLines url (removedSubscriptionMap store url) r1
            (qSplitC bundle '\n')) := by
        rw [List.filter_eq_self]
        intro a ha
        exact decide_eq_true (hA1sub a ha)
      rw [h1, h2, List.nil_append]
    have hR2 : removedSubscriptionMap
        (applyFlags f (removeSubscriptionStore store url)
          ++ applyFlags f (subsLines url (removedSubscriptionMap store url) r1
              (qSplitC bundle '\n'))) url =
        (applyFlags f (subsLines url (removedSubscriptionMap store url) r1
          (qSplitC bundle '\n'))).foldl
          (fun m s => qmapInsertQ m s.nameOf s) [] := by
      rw [removedSubscriptionMap, hFilt2]
    have huni : ∀ s ∈ applyFlags f
        (subsLines url (removedSubscriptionMap store url) r1
          (qSplitC bundle '\n')),
        s.autoConnectOf =
          f s.nameOf (recoveredFlag (removedSubscriptionMap store url)
            s.nameOf) := by
      intro s hs
      rcases List.mem_map.mp hs with ⟨t, ht, rfl⟩
      rcases mem_subsLines url (removedSubscriptionMap store url)
          (qSplitC bundle '\n') r1 t ht with ⟨l, hl, r, hr⟩
      have hfl := subsLine_flag url (removedSubscriptionMap store url) r l t hr
      rw [ac_withAC, nameOf_withAC, hfl]
    have hkey : ∀ l ∈ qSplitC bundle '\n', ∀ c,
        decodeSubscriptionLine url zeroRand l = some c →
        recoveredFlag (removedSubscriptionMap
          (applyFlags f (removeSubscriptionStore store url)
            ++ applyFlags f (subsLines url (removedSubscriptionMap store url)
                r1 (qSplitC bundle '\n'))) url) c.nameOf =
          f c.nameOf (recoveredFlag (removedSubscriptionMap store url)
            c.nameOf) := by
      intro l hl c hdec
      rw [hR2]
      rcases subsLines_name_exists url (removedSubscriptionMap store url)
          (qSplitC bundle '\n') r1 l hl c hdec with ⟨s, hsA, hsn⟩
      have hsF : s.withAutoConnect (f s.nameOf s.autoConnectOf) ∈
          applyFlags f (subsLines url (removedSubscriptionMap store url) r1
            (qSplitC bundle '\n')) :=
        List.mem_map.mpr ⟨s, hsA, rfl⟩
      rcases lookup_fold_insert
          (applyFlags f (subsLines url (removedSubscriptionMap store url) r1
            (qSplitC bundle '\n'))) c.nameOf [] with
        ⟨heq, hall⟩ | ⟨c', hc', hcn', heq⟩
      · exact absurd (by rw [nameOf_withAC, hsn]) (hall _ hsF)
      · have hrec : recoveredFlag
            ((applyFlags f (subsLines url (removedSubscriptionMap store url)
              r1 (qSplitC bundle '\n'))).foldl
              (fun m s => qmapInsertQ m s.nameOf s) []) c.nameOf =
            c'.autoConnectOf := by
          unfold recoveredFlag
          rw [heq]
        rw [hrec, huni c' hc', hcn']
    have himp2 : (addSubscriptionServersM
        (applyFlags f (removeSubscriptionStore store url)
          ++ applyFlags f (subsLines url (removedSubscriptionMap store url) r1
              (qSplitC bundle '\n'))) bundle url r2).store =
        removeSubscriptionStore
          (applyFlags f (removeSubscriptionStore store url)
            ++ applyFlags f (subsLines url (removedSubscriptionMap store url)
                r1 (qSplitC bundle '\n'))) url
          ++ subsLines url (removedSubscriptionMap
              (applyFlags f (removeSubscriptionStore store url)
                ++ applyFlags f (subsLines url
                    (removedSubscriptionMap store url) r1
                    (qSplitC bundle '\n'))) url) r2 (qSplitC bundle '\n') := by
      simp only [addSubscriptionServersM]
      rw [if_neg hb]
    rw [himp2, hKeep2, List.map_append, List.map_append]
    congr 1
    exact subsLines_erase_eq url (removedSubscriptionMap store url)
      (removedSubscriptionMap
        (applyFlags f (removeSubscriptionStore store url)
          ++ applyFlags f (subsLines url (removedSubscriptionMap store url) r1
              (qSplitC bundle '\n'))) url) f (qSplitC bundle '\n') r1 r2 hkey

/-- A one-line bundle whose vmess payload selects the tcp transport with
http-header camouflage, so the built config embeds the randomized
User-Agent pool. -/
def c6Bundle : String :=
  "vmess://eyJhZGQiOiJhLmNvbSIsIm5ldCI6InRjcCIsInR5cGUiOiJodHRwIn0="

set_option maxHeartbeats 2000000 in
/-- Counterexample to C6 as stated: importing the same one-line bundle
twice (with the successive `std::rand()` draws the two imports actually
observe, here the streams 0,0,... and 1,1,...) does not reproduce the same
stored fields — the randomized User-Agent pool differs — even though no
flag was touched in between. -/
theorem claim_C6_counterexample :
    (addSubscriptionServersM
        (addSubscriptionServersM [] c6Bundle "u" (fun _ _ => 0)).store
        c6Bundle "u" (fun _ _ => 1)).store ≠
      (addSubscriptionServersM [] c6Bundle "u" (fun _ _ => 0)).store := by
  decide

/-- `AppProxy::getServerConfigErrors` (appproxy.cpp:989-998): dispatch on
the protocol string. -/
def getServerConfigErrors (fs : String → Bool) (serverConfig : JObj)
    (protocol : String) : List String :=
  if protocol = "vmess" then getV2RayServerConfigErrors fs serverConfig
  else if protocol = "shadowsocks" then
    getShadowsocksServerConfigErrors serverConfig
  else ["Unknown Protocol: " ++ protocol]

/-- `AppProxy::getPrettyServerConfig` (appproxy.cpp:1000-1008); `none`
models the empty `QJsonObject` returned for an unknown protocol. -/
def getPrettyServerConfigM (rand : Nat → Nat) (serverConfig : JObj)
    (protocol : String) : Option StoredServer :=
  if protocol = "vmess" then
    some (.vmess (getPrettyV2RayConfig rand serverConfig))
  else if protocol = "shadowsocks" then
    some (.shadowsocks (getPrettyShadowsocksConfig serverConfig))
  else none

/-- The new server name after an edit:
`serverConfig["serverName"].toString()` of the pretty config (the empty
string for the empty object of an unknown protocol). -/
def editNewName (rand : Nat → Nat) (serverConfig : JObj)
    (protocol : String) : String :=
  match getPrettyServerConfigM rand serverConfig protocol with
  | some pretty => pretty.nameOf
  | none => ""

/-- The outcome of `AppProxy::editServer` on the latency cache: the cache
afterwards and whether the edit was applied. -/
structure EditServerResult where
  latency : List (String × Int)
  applied : Bool
deriving Repr

/-- `AppProxy::editServer` (appproxy.cpp:957-987), restricted to its
effect on the `serverLatency` cache: on a validation error nothing
happens; when `configurator.editServer` succeeds (`editOk`, an external
store operation) and the old name has a cached latency, the cache entry is
moved to the new name when the name changed (insert new, remove old) and
left alone otherwise. -/
def editServerM (fs : String → Bool) (rand : Nat → Nat)
    (serverLatency : List (String × Int)) (serverName protocol : String)
    (serverConfig : JObj) (editOk : Bool) : EditServerResult :=
  if 0 < (getServerConfigErrors fs serverConfig protocol).length then
    { latency := serverLatency, applied := false }
  else if editOk then
    { latency :=
        if (lookupQ serverLatency serverName).isSome then
          if ¬ editNewName rand serverConfig protocol = serverName then
            removeQ
              (qmapInsertQ serverLatency
                (editNewName rand serverConfig protocol)
                ((lookupQ serverLatency serverName).getD 0))
              serverName
          else serverLatency
        else serverLatency,
      applied := true }
  else { latency := serverLatency, applied := false }

theorem lookup_removeQ {α : Type} (t : List (String × α)) (k x : String) :
    lookupQ (removeQ t k) x = if x = k then none else lookupQ t x := by
  induction t with
  | nil => simp [removeQ, lookupQ]
  | cons p rest ih =>
    by_cases hp : p.1 = k
    · have : removeQ (p :: rest) k = removeQ rest k := by
        simp [removeQ, hp]
      rw [this, ih]
      by_cases hx : x = k
      · rw [if_pos hx, if_pos hx]
      · rw [if_neg hx, if_neg hx]
        have hpx : ¬ p.1 = x := fun h => hx ((hp.symm.trans h).symm)
        simp [lookupQ, hpx]
    · have : removeQ (p :: rest) k = p :: removeQ rest k := by
        simp [removeQ, hp]
      rw [this]
      by_cases hpx : p.1 = x
      · have hxk : ¬ x = k := fun h => hp (hpx.trans h)
        simp [lookupQ, hpx, hxk]
      · simp [lookupQ, hpx, ih]

/-- Claim C10: when `editServer` applies an edit (validation passed and the
store accepted it) and the edited server had a cached latency, the cache
entry moves from the old name to the new name when the name changed (new
name maps to the old latency, old name is gone); when the name is unchanged
or there was no cached entry the cache is untouched; and in every case —
including rejected edits — entries for all other names are unchanged. -/
theorem claim_C10 (fs : String → Bool) (rand : Nat → Nat)
    (table : List (String × Int)) (serverName protocol : String)
    (serverConfig : JObj) (editOk : Bool) :
    ((editServerM fs rand table serverName protocol serverConfig
        editOk).applied = true →
      (∀ v : Int, lookupQ table serverName = some v →
          ¬ editNewName rand serverConfig protocol = serverName →
        lookupQ (editServerM fs rand table serverName protocol serverConfig
              editOk).latency (editNewName rand serverConfig protocol) =
            some v ∧
          lookupQ (editServerM fs rand table serverName protocol serverConfig
              editOk).latency serverName = none) ∧
      (lookupQ table serverName = none →
        (editServerM fs rand table serverName protocol serverConfig
            editOk).latency = table) ∧
      (editNewName rand serverConfig protocol = serverName →
        (editServerM fs rand table serverName protocol serverConfig
            editOk).latency = table)) ∧
    (∀ x : String, ¬ x = serverName →
        ¬ x = editNewName rand serverConfig protocol →
      lookupQ (editServerM fs rand table serverName protocol serverConfig
          editOk).latency x = lookupQ table x) := by
  by_cases herr :
      0 < (getServerConfigErrors fs serverConfig protocol).length
  · have hlat : (editServerM fs rand table serverName protocol serverConfig
        editOk).latency = table := by
      unfold editServerM; rw [if_pos herr]
    have happ : (editServerM fs rand table serverName protocol serverConfig
        editOk).applied = false := by
      unfold editServerM; rw [if_pos herr]
    refine ⟨fun hap => ?_, fun x _ _ => by rw [hlat]⟩
    rw [happ] at hap
    exact absurd hap (by decide)
  · by_cases hok : editOk = true
    · have hlat : (editServerM fs rand table serverName protocol serverConfig
          editOk).latency =
          (if (lookupQ table serverName).isSome then
            if ¬ editNewName rand serverConfig protocol = serverName then
              removeQ
                (qmapInsertQ table
                  (editNewName rand serverConfig protocol)
                  ((lookupQ table serverName).getD 0))
                serverName
            else table
          else table) := by
        unfold editServerM; rw [if_neg herr, hok, if_pos rfl]
      refine ⟨fun _ => ⟨?_, ?_, ?_⟩, ?_⟩
      · intro v hv hne
        rw [hlat, hv]
        rw [if_pos (Option.isSome_some (a := v)), if_pos hne]
        constructor
        · rw [lookup_removeQ, if_neg hne, lookup_insertQ, if_pos rfl]
          rfl
        · rw [lookup_removeQ, if_pos rfl]
      · intro hnone
        rw [hlat, hnone]
        simp
      · intro heq
        rw [hlat]
        by_cases hs : (lookupQ table serverName).isSome = true
        · rw [if_pos hs, if_neg (not_not_intro heq)]
        · rw [if_neg hs]
      · intro x hx1 hx2
        rw [hlat]
        by_cases hs : (lookupQ table serverName).isSome = true
        · rw [if_pos hs]
          by_cases hne : editNewName rand serverConfig protocol = serverName
          · rw [if_neg (not_not_intro hne)]
          · rw [if_pos hne, lookup_removeQ, if_neg hx1, lookup_insertQ,
              if_neg (fun h => hx2 h.symm)]
        · rw [if_neg hs]
    · have hlat : (editServerM fs rand table serverName protocol serverConfig
          editOk).latency = table := by
        unfold editServerM
        rw [if_neg herr, if_neg (by simpa using hok)]
      have happ : (editServerM fs rand table serverName protocol serverConfig
          editOk).applied = false := by
        unfold editServerM
        rw [if_neg herr, if_neg (by simpa using hok)]
      refine ⟨fun hap => ?_, fun x _ _ => by rw [hlat]⟩
      rw [happ] at hap
      exact absurd hap (by decide)

/-- A valid vmess edit payload whose `serverName` is `"s-new"`. -/
def editCfgC10 : JObj :=
  [("serverName", .str "s-new"), ("serverAddr", .str "1.2.3.4"),
   ("serverPort", .str "443"), ("id", .str "uid"), ("alterId", .str "0"),
   ("security", .str "auto"), ("mux", .str "-1"), ("network", .str "tcp"),
   ("networkSecurity", .str "none")]

/-- Witness for C10: editing the cached server `"old"` to the valid vmess
payload named `"s-new"` moves the cached latency 42 to the new name and
removes the old entry. -/
theorem claim_C10_witness :
    lookupQ (editServerM (fun _ => false) (fun _ => 0)
        [("old", (42 : Int))] "old" "vmess" editCfgC10 true).latency
      (editNewName (fun _ => 0) editCfgC10 "vmess") = some 42 ∧
    lookupQ (editServerM (fun _ => false) (fun _ => 0)
        [("old", (42 : Int))] "old" "vmess" editCfgC10 true).latency
      "old" = none :=
  ((claim_C10 (fun _ => false) (fun _ => 0) [("old", (42 : Int))] "old"
      "vmess" editCfgC10 true).1 (by decide)).1 42 (by decide) (by decide)
